import Mathlib

/-!
# Chat application: session registry, presence broadcast and message delivery

A shallow embedding of the chat application:

* `server/server.js`: the module-level `userSocketMap` object together with the
  `connection` and `disconnect` handlers and their `getOnlineUsers` broadcast;
* `server/models/controllers/messageController.js`: `sendMessage`,
  `getMessages`, `markMessageAsSeen` and `getUsersForSidebar`, over a message
  store that is the list of the stored documents in insertion order;
* `client/context/ChatContext.jsx`: the handlers of the pushed events, the
  client `sendMessage`, and the effects that clear the unseen count of the
  selected conversation and reset the state on sign-out;
* `client/context/AuthContext.jsx`: `clearAuthData` and `logout`.

The JavaScript object `userSocketMap` is represented by the list of its own
properties in the order in which `Object.keys` / `Object.entries` enumerate
them (array-index keys in ascending numeric order first, then the other string
keys in creation order).  It is a plain object, so it inherits the properties
of `Object.prototype`: an assignment to `__proto__` creates no own property,
and a read of a name that is no own property but a property of
`Object.prototype` yields the inherited value.
-/

namespace ChatApp

/-! ## JavaScript values and objects -/

/-- JavaScript truthiness of an optional string: `undefined` and the empty
string are falsy, every other string is truthy. -/
def truthy : Option String → Bool
  | none => false
  | some s => decide (s ≠ "")

/-- Value of a list of decimal digits, `none` when a character is no digit. -/
def decimalValue : List Char → Nat → Option Nat
  | [], acc => some acc
  | c :: cs, acc =>
    if c.isDigit then decimalValue cs (acc * 10 + (c.toNat - 48)) else none

/-- The array index denoted by a property key, when it is one: a canonical
decimal numeral (no leading zero) below `2^32 - 1`. -/
def arrayIndex (k : String) : Option Nat :=
  match k.data with
  | [] => none
  | c :: cs =>
    if c = '0' ∧ cs ≠ [] then none
    else
      match decimalValue (c :: cs) 0 with
      | some n => if n < 4294967295 then some n else none
      | none => none

/-- Own-property enumeration order: does a new key `k` come before the
existing key `k'`?  Array indices come first, in ascending order; all other
keys keep their creation order. -/
def keyBefore (k k' : String) : Bool :=
  match arrayIndex k, arrayIndex k' with
  | some n, some n' => decide (n < n')
  | some _, none => true
  | none, _ => false

/-- The object `userSocketMap` (`{userId: socketId}`), as the list of its
entries in enumeration order. -/
abbrev UserSocketMap := List (String × String)

namespace UserSocketMap

/-- The value of the own property `k` of the object, `none` when it has no own
property `k`. -/
def get : UserSocketMap → String → Option String
  | [], _ => none
  | (k', v) :: rest, k => if k' = k then some v else get rest k

/-- Assignment to an existing property: the value changes, the position in
the enumeration order does not. -/
def replaceValue : UserSocketMap → String → String → UserSocketMap
  | [], _, _ => []
  | (k', v') :: rest, k, v =>
    if k' = k then (k', v) :: rest else (k', v') :: replaceValue rest k v

/-- Creation of a new property at its place in the enumeration order. -/
def insertNew : UserSocketMap → String → String → UserSocketMap
  | [], k, v => [(k, v)]
  | (k', v') :: rest, k, v =>
    if keyBefore k k' then (k, v) :: (k', v') :: rest
    else (k', v') :: insertNew rest k v

/-- Definition of the own property `k` with value `v`: an existing own
property is overwritten, otherwise a new one is created. -/
def defineOwn (m : UserSocketMap) (k v : String) : UserSocketMap :=
  if (get m k).isSome then replaceValue m k v else insertNew m k v

/-- Assignment `userSocketMap[k] = v` of a string `v`.  For `k = "__proto__"`
the assignment runs the setter inherited from `Object.prototype`, which ignores
a value that is no object: no own property is created.  Every other key,
also one that names a method of `Object.prototype`, gets an own property. -/
def set (m : UserSocketMap) (k v : String) : UserSocketMap :=
  if k = "__proto__" then m else defineOwn m k v

/-- The names of the properties of `Object.prototype`, which every plain
object inherits. -/
def protoNames : List String :=
  ["__proto__", "constructor", "hasOwnProperty", "isPrototypeOf", "propertyIsEnumerable",
    "toLocaleString", "toString", "valueOf", "__defineGetter__", "__defineSetter__",
    "__lookupGetter__", "__lookupSetter__"]

/-- The result of a property read `userSocketMap[k]`: the value of an own
property, a value inherited from `Object.prototype` (a function, or the
prototype itself for `__proto__`: truthy and no string), or `undefined`. -/
inductive Lookup where
  | own (socketId : String)
  | inherited
  | absent
  deriving DecidableEq, Repr

/-- Property read `userSocketMap[k]`. -/
def lookup (m : UserSocketMap) (k : String) : Lookup :=
  match get m k with
  | some v => .own v
  | none => if k ∈ protoNames then .inherited else .absent

/-- JavaScript truthiness of the result of a property read. -/
def Lookup.truthy : Lookup → Bool
  | .own socketId => decide (socketId ≠ "")
  | .inherited => true
  | .absent => false

/-- The sockets reached by `io.to(v).emit(...)` for the result `v` of a property
read: the socket whose id is `v`; an inherited value names the room of no
socket. -/
def Lookup.rooms : Lookup → List String
  | .own socketId => [socketId]
  | .inherited => []
  | .absent => []

/-- Deletion `delete userSocketMap[k]`. -/
def delete (m : UserSocketMap) (k : String) : UserSocketMap :=
  m.filter (fun e => decide (e.1 ≠ k))

/-- Enumeration `Object.keys(userSocketMap)`. -/
def keys (m : UserSocketMap) : List String := m.map Prod.fst

/-- The socket ids stored in the object. -/
def values (m : UserSocketMap) : List String := m.map Prod.snd

/-- The first `uid` of `Object.entries(userSocketMap)` with
`socketId === socket.id`, as found by the loop of the `disconnect` handler. -/
def findBySocket : UserSocketMap → String → Option String
  | [], _ => none
  | (uid, socketId) :: rest, id =>
    if socketId = id then some uid else findBySocket rest id

end UserSocketMap

/-! ## `server.js`: the connection and disconnect handlers -/

/-- A socket as seen by the `connection` handler: its id `socket.id` and the
handshake parameter `socket.handshake.query?.userId`. -/
structure Socket where
  id : String
  userId : Option String
  deriving DecidableEq, Repr

/-- The guard `userId && userId !== "undefined"` of the `connection` handler. -/
def validUserId (userId : Option String) : Bool :=
  truthy userId && decide (userId ≠ some "undefined")

/-- The registry mutation of the `connection` handler (lines 54-58). -/
def register (m : UserSocketMap) (socket : Socket) : UserSocketMap :=
  match socket.userId with
  | some userId =>
    if validUserId (some userId) then m.set userId socket.id else m
  | none => m

/-- The registry mutation of the `disconnect` handler (lines 75-80): the first
entry whose socket id is the disconnecting one is deleted, then the loop
breaks. -/
def unregister (m : UserSocketMap) (socketId : String) : UserSocketMap :=
  match m.findBySocket socketId with
  | some uid => m.delete uid
  | none => m

/-- The `connection` handler: the new registry and the payload of the
`getOnlineUsers` broadcast (`io.emit("getOnlineUsers", Object.keys(userSocketMap))`). -/
def connection (m : UserSocketMap) (socket : Socket) : UserSocketMap × List String :=
  let m1 := register m socket
  (m1, m1.keys)

/-- The `disconnect` handler of the socket with id `socketId`: the new registry
and the payload of the `getOnlineUsers` broadcast. -/
def disconnect (m : UserSocketMap) (socketId : String) : UserSocketMap × List String :=
  let m1 := unregister m socketId
  (m1, m1.keys)

/-- Server state: the registry and the sockets that are currently connected
(the transport's own bookkeeping; a socket is in it from its `connection` event
until its `disconnect` event). -/
structure Server where
  userSocketMap : UserSocketMap
  sockets : List Socket
  deriving DecidableEq, Repr

/-- The state at start-up: `userSocketMap = {}` and no socket. -/
def Server.init : Server := ⟨[], []⟩

/-- Transport events handled by `server.js`. -/
inductive Event where
  | connection (socket : Socket)
  | disconnect (socketId : String)
  deriving DecidableEq, Repr

/-- One event. -/
def step (s : Server) : Event → Server
  | .connection socket =>
    ⟨(connection s.userSocketMap socket).1, s.sockets ++ [socket]⟩
  | .disconnect socketId =>
    ⟨(disconnect s.userSocketMap socketId).1,
      s.sockets.filter (fun k => decide (k.id ≠ socketId))⟩

/-- A sequence of events, oldest first. -/
def run (s : Server) (es : List Event) : Server := es.foldl step s

/-- The socket ids of the connection events of a trace, oldest first. -/
def connectedIds : List Event → List String
  | [] => []
  | .connection socket :: es => socket.id :: connectedIds es
  | .disconnect _ :: es => connectedIds es

/-- Every connection of the trace has its own socket id. -/
def FreshIds (es : List Event) : Prop := (connectedIds es).Nodup

/-- The socket id registered by an event for `identity`, when the event is a
connection whose handshake carries that identity and passes the guard. -/
def Event.registers (identity : String) : Event → Option String
  | .connection socket =>
    if validUserId socket.userId ∧ socket.userId = some identity then some socket.id
    else none
  | .disconnect _ => none

/-- The socket id of the most recent register for `identity`, scanning the
events newest first. -/
def lastRegisterFrom (identity : String) : List Event → Option String
  | [] => none
  | e :: older =>
    match e.registers identity with
    | some id => some id
    | none => lastRegisterFrom identity older

/-- The socket id of the most recent register for `identity` in a trace
(oldest first). -/
def lastRegister (es : List Event) (identity : String) : Option String :=
  lastRegisterFrom identity es.reverse

/-- The lookup the specification describes, scanning the events newest first:
the handle of the most recent register for `identity`, absent when that handle
was unregistered afterwards (`closed` collects the handles unregistered by the
events already scanned) or when no register for `identity` occurred. -/
def specLookupFrom (identity : String) : List Event → List String → Option String
  | [], _ => none
  | .disconnect id :: older, closed => specLookupFrom identity older (id :: closed)
  | .connection socket :: older, closed =>
    match (Event.connection socket).registers identity with
    | some id => if id ∈ closed then none else some id
    | none => specLookupFrom identity older closed

/-- The specified result of `lookup(identity)` after a trace (oldest first). -/
def specLookup (es : List Event) (identity : String) : Option String :=
  specLookupFrom identity es.reverse []

/-! ## `messageController.js`: `sendMessage` -/

/-- A stored message document. -/
structure Message where
  _id : String
  senderId : String
  receiverId : String
  text : String
  image : Option String
  seen : Bool
  createdAt : Nat
  deriving DecidableEq, Repr

/-- Modelled from the spec: `Message.create` of `models/Message.js`, which is
not among the sources.  The store assigns the id and the creation time (here
supplied by the caller of the model) and `seen = false`, and appends the
document to the collection. -/
def Message.create (store : List Message) (_id : String) (createdAt : Nat)
    (senderId receiverId text : String) (image : Option String) :
    Message × List Message :=
  let doc : Message := ⟨_id, senderId, receiverId, text, image, false, createdAt⟩
  (doc, store ++ [doc])

/-- The request of `sendMessage`: `req.body.text`, `req.body.image`,
`req.params?.id` and `req.user?._id`. -/
structure SendRequest where
  text : Option String
  image : Option String
  receiverId : Option String
  senderId : Option String
  deriving DecidableEq, Repr

/-- Outcome of `cloudinary.uploader.upload(image)`: it throws, or it answers
with a response whose `secure_url` may be missing. -/
inductive Upload where
  | threw
  | done (secure_url : Option String)
  deriving DecidableEq, Repr

/-- Outcome of the store on `Message.create`: it throws an error (with its
`message`, if any), or it persists the document under a new id and creation
time. -/
inductive Persist where
  | threw (message : Option String)
  | created (_id : String) (createdAt : Nat)
  deriving DecidableEq, Repr

/-- The answers of the external collaborators during one call. -/
structure Outside where
  upload : String → Upload
  persist : Persist

/-- The HTTP response: status (200 when `res.json` is called without
`res.status`), `success`, the error `message` and `newMessage`. -/
structure Response where
  status : Nat
  success : Bool
  message : Option String
  newMessage : Option Message
  deriving DecidableEq, Repr

/-- Result of one call of `sendMessage`: the response, the message store
afterwards and the `newMessage` events pushed, each with the socket id given
to `io.to`. -/
structure SendResult where
  response : Response
  store : List Message
  emitted : List (String × Message)
  deriving DecidableEq, Repr

/-- Lines 154-166 of `sendMessage`: `none` when the upload threw, otherwise
the value of `imageUrl` (`undefined` when there is no image or the upload
response has no `secure_url`). -/
def uploadStep (image : Option String) (upload : String → Upload) :
    Option (Option String) :=
  match image with
  | some img =>
    if truthy (some img) then
      match upload img with
      | .threw => none
      | .done secure_url => some secure_url
    else some none
  | none => some none

/-- The controller `sendMessage` in the runs in which the call
`io.to(...).emit(...)`, if made, returns normally (`sendMessagePush` is the
controller with the outcome of that call as a parameter).  The push to a socket
id is recorded in `emitted`; the transport delivers it to the socket with that
id if it is connected and drops it otherwise.  A `receiverId` that names no own
property but a property of `Object.prototype` reads an inherited value, which
names the room of no socket, so that nothing is pushed, as for a missing
entry.  The exported server object `io` is always defined, so the guard
`receiverSocketId && io` is the truthiness of `receiverSocketId`. -/
def sendMessage (req : SendRequest) (env : Outside) (store : List Message)
    (userSocketMap : UserSocketMap) : SendResult :=
  if !truthy req.receiverId || !truthy req.senderId then
    ⟨⟨400, false, some "Invalid sender or receiver ID", none⟩, store, []⟩
  else if !truthy req.text && !truthy req.image then
    ⟨⟨400, false, some "Message text or image required", none⟩, store, []⟩
  else
    match uploadStep req.image env.upload with
    | none => ⟨⟨500, false, some "Failed to upload image", none⟩, store, []⟩
    | some imageUrl =>
      match env.persist with
      | .threw message =>
        ⟨⟨500, false,
          some (if truthy message then message.getD "" else "Internal server error"),
          none⟩, store, []⟩
      | .created _id createdAt =>
        let receiverId := req.receiverId.getD ""
        let created := Message.create store _id createdAt (req.senderId.getD "")
          receiverId (if truthy req.text then req.text.getD "" else "") imageUrl
        let newMessage := created.1
        let receiverSocketId := userSocketMap.get receiverId
        let emitted :=
          if truthy receiverSocketId then [(receiverSocketId.getD "", newMessage)]
          else []
        ⟨⟨200, true, none, some newMessage⟩, created.2, emitted⟩

/-- The controller `sendMessage` (lines 134-192) with the outcome of the call
`io.to(receiverSocketId).emit("newMessage", newMessage)` as a parameter:
`pushFault` is `some message` when that call, if it is made, throws an error
(with that `message`, if any).  The call sits in the outer `try`, after
`Message.create`: an error it throws reaches the outer `catch`, which answers
status 500, while the message stays persisted. -/
def sendMessagePush (pushFault : Option (Option String)) (req : SendRequest)
    (env : Outside) (store : List Message) (userSocketMap : UserSocketMap) : SendResult :=
  if !truthy req.receiverId || !truthy req.senderId then
    ⟨⟨400, false, some "Invalid sender or receiver ID", none⟩, store, []⟩
  else if !truthy req.text && !truthy req.image then
    ⟨⟨400, false, some "Message text or image required", none⟩, store, []⟩
  else
    match uploadStep req.image env.upload with
    | none => ⟨⟨500, false, some "Failed to upload image", none⟩, store, []⟩
    | some imageUrl =>
      match env.persist with
      | .threw message =>
        ⟨⟨500, false,
          some (if truthy message then message.getD "" else "Internal server error"),
          none⟩, store, []⟩
      | .created _id createdAt =>
        let receiverId := req.receiverId.getD ""
        let created := Message.create store _id createdAt (req.senderId.getD "")
          receiverId (if truthy req.text then req.text.getD "" else "") imageUrl
        let newMessage := created.1
        let receiverSocketId := userSocketMap.lookup receiverId
        if receiverSocketId.truthy then
          match pushFault with
          | some message =>
            ⟨⟨500, false,
              some (if truthy message then message.getD "" else "Internal server error"),
              none⟩, created.2, []⟩
          | none =>
            ⟨⟨200, true, none, some newMessage⟩, created.2,
              receiverSocketId.rooms.map (fun socketId => (socketId, newMessage))⟩
        else ⟨⟨200, true, none, some newMessage⟩, created.2, []⟩

/-! ## `messageController.js`: `getMessages`, `markMessageAsSeen`, `getUsersForSidebar` -/

/-- The `message` of an error response: `error?.message || "Internal server error"`. -/
def errorMessage (message : Option String) : String :=
  if truthy message then message.getD "" else "Internal server error"

/-- Modelled from the spec: the query `Message.find` with the `$or` filter of
`getMessages` on the collection of `models/Message.js` (not among the sources):
the stored messages exchanged between the two identities, in either
direction. -/
def conversation (store : List Message) (myId selectedUserId : String) : List Message :=
  store.filter (fun msg =>
    decide ((msg.senderId = myId ∧ msg.receiverId = selectedUserId) ∨
      (msg.senderId = selectedUserId ∧ msg.receiverId = myId)))

/-- Modelled from the spec: `.sort({ createdAt: 1 })`, ascending creation time
(documents of equal creation time keep the order of the collection). -/
def sortByCreatedAt (messages : List Message) : List Message :=
  messages.insertionSort (fun a b => a.createdAt ≤ b.createdAt)

/-- Modelled from the spec: `Message.updateMany({ senderId, receiverId, seen:
false }, { seen: true })` on the collection of `models/Message.js`. -/
def updateManySeen (store : List Message) (senderId receiverId : String) : List Message :=
  store.map (fun msg =>
    if msg.senderId = senderId ∧ msg.receiverId = receiverId ∧ msg.seen = false then
      { msg with seen := true }
    else msg)

/-- The request of `getMessages`: `req.params.id` and `req.user?._id`. -/
structure GetMessagesRequest where
  selectedUserId : Option String
  myId : Option String
  deriving DecidableEq, Repr

/-- The response of `getMessages`. -/
structure MessagesResponse where
  status : Nat
  success : Bool
  message : Option String
  messages : Option (List Message)
  deriving DecidableEq, Repr

/-- The controller `getMessages`.  `fault` is `some message` when a store
operation of the call throws an error (with that `message`, if any); the
response and the message store afterwards. -/
def getMessages (req : GetMessagesRequest) (fault : Option (Option String))
    (store : List Message) : MessagesResponse × List Message :=
  if !truthy req.selectedUserId || !truthy req.myId then
    (⟨400, false, some "Invalid user IDs", none⟩, store)
  else
    match fault with
    | some message => (⟨500, false, some (errorMessage message), none⟩, store)
    | none =>
      let selectedUserId := req.selectedUserId.getD ""
      let myId := req.myId.getD ""
      let messages := sortByCreatedAt (conversation store myId selectedUserId)
      (⟨200, true, none, some messages⟩, updateManySeen store selectedUserId myId)

/-- Modelled from the spec: `Message.findByIdAndUpdate(id, { seen: true },
{ new: true })` on the collection of `models/Message.js`: the document with
that id after the update (`none` when there is none) and the collection
afterwards. -/
def findByIdAndUpdateSeen : List Message → String → Option Message × List Message
  | [], _ => (none, [])
  | msg :: rest, id =>
    if msg._id = id then (some { msg with seen := true }, { msg with seen := true } :: rest)
    else ((findByIdAndUpdateSeen rest id).1, msg :: (findByIdAndUpdateSeen rest id).2)

/-- The response of `markMessageAsSeen`; its field `message` is the error text
or the updated document. -/
structure MarkSeenResponse where
  status : Nat
  success : Bool
  message : Option (String ⊕ Message)
  deriving DecidableEq, Repr

/-- The controller `markMessageAsSeen`, with `id` the parameter `req.params.id`
and `fault` as in `getMessages`. -/
def markMessageAsSeen (id : Option String) (fault : Option (Option String))
    (store : List Message) : MarkSeenResponse × List Message :=
  if !truthy id then (⟨400, false, some (.inl "Message ID required")⟩, store)
  else
    match fault with
    | some message => (⟨500, false, some (.inl (errorMessage message))⟩, store)
    | none =>
      match (findByIdAndUpdateSeen store (id.getD "")).1 with
      | none => (⟨404, false, some (.inl "Message not found")⟩, store)
      | some message =>
        (⟨200, true, some (.inr message)⟩, (findByIdAndUpdateSeen store (id.getD "")).2)

/-- A plain JavaScript object with values of type `α`, as the list of its
entries in enumeration order. -/
abbrev JsObject (α : Type) := List (String × α)

namespace JsObject

/-- Property read `o[k]`; `none` stands for `undefined`. -/
def get {α : Type} : JsObject α → String → Option α
  | [], _ => none
  | (k', v) :: rest, k => if k' = k then some v else get rest k

/-- Assignment to an existing property, which keeps its place. -/
def replaceValue {α : Type} : JsObject α → String → α → JsObject α
  | [], _, _ => []
  | (k', v') :: rest, k, v =>
    if k' = k then (k', v) :: rest else (k', v') :: replaceValue rest k v

/-- Creation of a new property at its place in the enumeration order. -/
def insertNew {α : Type} : JsObject α → String → α → JsObject α
  | [], k, v => [(k, v)]
  | (k', v') :: rest, k, v =>
    if keyBefore k k' then (k, v) :: (k', v') :: rest
    else (k', v') :: insertNew rest k v

/-- Assignment `o[k] = v`, also the object `{ ...o, [k]: v }`. -/
def set {α : Type} (o : JsObject α) (k : String) (v : α) : JsObject α :=
  if (get o k).isSome then replaceValue o k v else insertNew o k v

end JsObject

/-- A user document without its password (`select("-password")`), also the
profile carried by the `userCreated` and `userUpdated` events. -/
structure User where
  _id : String
  fullName : String
  email : String
  bio : String
  profilePic : String
  deriving DecidableEq, Repr

/-- Modelled from the spec: the number of documents found by `Message.find({
senderId, receiverId, seen: false })` on the collection of
`models/Message.js`. -/
def unseenCount (store : List Message) (senderId receiverId : String) : Nat :=
  (store.filter (fun msg =>
    decide (msg.senderId = senderId ∧ msg.receiverId = receiverId ∧ msg.seen = false))).length

/-- The response of `getUsersForSidebar`. -/
structure SidebarResponse where
  status : Nat
  success : Bool
  message : Option String
  users : Option (List User)
  unseenMessages : Option (JsObject Nat)
  deriving DecidableEq, Repr

/-- One of the promises of lines 25-41: the count for `user` is written when
it is positive; a failing query (`countFails`) is logged and writes nothing. -/
def countUnseen (store : List Message) (userId : String) (countFails : String → Bool)
    (unseenMessages : JsObject Nat) (user : User) : JsObject Nat :=
  if countFails user._id then unseenMessages
  else if unseenCount store user._id userId > 0 then
    unseenMessages.set user._id (unseenCount store user._id userId)
  else unseenMessages

/-- The controller `getUsersForSidebar` for `userId = req.user?._id` on the
accounts `users` (the collection of `models/User.js`).  `fault` is `some
message` when `User.find` throws, `countFails` tells for which senders the
count query throws.  The promises write their entries in the order of the
accounts. -/
def getUsersForSidebar (userId : Option String) (fault : Option (Option String))
    (countFails : String → Bool) (users : List User) (store : List Message) :
    SidebarResponse :=
  if !truthy userId then ⟨401, false, some "User not authenticated", none, none⟩
  else
    match fault with
    | some message => ⟨500, false, some (errorMessage message), none, none⟩
    | none =>
      let filteredUsers := users.filter (fun user => decide (user._id ≠ userId.getD ""))
      let unseenMessages :=
        filteredUsers.foldl (countUnseen store (userId.getD "") countFails) []
      ⟨200, true, none, some filteredUsers, some unseenMessages⟩

/-- A call of one of the controllers that touch the message store. -/
inductive StoreCall where
  | sendMessage (req : SendRequest) (env : Outside) (userSocketMap : UserSocketMap)
  | getMessages (req : GetMessagesRequest) (fault : Option (Option String))
  | markMessageAsSeen (id : Option String) (fault : Option (Option String))

/-- The message store after a call. -/
def StoreCall.apply (store : List Message) : StoreCall → List Message
  | .sendMessage req env userSocketMap => (ChatApp.sendMessage req env store userSocketMap).store
  | .getMessages req fault => (ChatApp.getMessages req fault store).2
  | .markMessageAsSeen id fault => (ChatApp.markMessageAsSeen id fault store).2

/-- The message store after a sequence of calls, oldest first. -/
def runCalls (store : List Message) (calls : List StoreCall) : List Message :=
  calls.foldl StoreCall.apply store

/-! ## `ChatContext.jsx`: the client -/

/-- The state of `ChatProvider`. -/
structure ChatState where
  messages : List Message
  users : List User
  selectedUser : Option User
  unseenMessages : JsObject Nat
  isUsersLoaded : Bool
  deriving DecidableEq, Repr

/-- The test `selectedUser && newMessage.senderId === selectedUser._id`. -/
def fromSelectedUser (selectedUser : Option User) (newMessage : Message) : Bool :=
  match selectedUser with
  | some user => decide (newMessage.senderId = user._id)
  | none => false

/-- The handler `handleNewMessage`: the state afterwards and the message ids of
the requests `PUT /api/messages/mark/:id` it issues.  `token` is the token of
the auth context; `getAxiosWithAuth()` is `null` exactly when it is falsy. -/
def handleNewMessage (token : Option String) (state : ChatState)
    (newMessage : Option Message) : ChatState × List String :=
  match newMessage with
  | none => (state, [])
  | some newMessage =>
    if fromSelectedUser state.selectedUser newMessage then
      ({ state with messages := state.messages ++ [{ newMessage with seen := true }] },
        if truthy token && truthy (some newMessage._id) then [newMessage._id] else [])
    else
      ({ state with
          unseenMessages := state.unseenMessages.set newMessage.senderId
            ((state.unseenMessages.get newMessage.senderId).getD 0 + 1) }, [])

/-- The handler `handleUserCreated`: the user list afterwards. -/
def handleUserCreated (authUser : Option User) (prevUsers : List User)
    (newUserData : Option User) : List User :=
  match newUserData with
  | none => prevUsers
  | some newUserData =>
    if some newUserData._id ≠ authUser.map User._id then
      if prevUsers.any (fun user => decide (user._id = newUserData._id)) then prevUsers
      else prevUsers ++ [newUserData]
    else prevUsers

/-- The handler `handleUserUpdated`: the state afterwards. -/
def handleUserUpdated (state : ChatState) (updatedUserData : Option User) : ChatState :=
  match updatedUserData with
  | none => state
  | some updatedUserData =>
    { state with
      users := state.users.map (fun user =>
        if user._id = updatedUserData._id then updatedUserData else user)
      selectedUser :=
        match state.selectedUser with
        | some selectedUser =>
          if selectedUser._id = updatedUserData._id then some updatedUserData
          else some selectedUser
        | none => none }

/-- The effect of lines 252-260, run when `selectedUser` changes: the unseen
counts afterwards. -/
def clearUnseenOnSelect (selectedUser : Option User) (unseenMessages : JsObject Nat) :
    JsObject Nat :=
  match selectedUser with
  | some user =>
    if truthy (some user._id) && decide ((unseenMessages.get user._id).getD 0 ≠ 0) then
      unseenMessages.set user._id 0
    else unseenMessages
  | none => unseenMessages

/-- Outcome of the request `axios.post("/api/messages/send/:id", messageData)`
of the client: the promise rejects (no response at all, or an error response
with its status), or it resolves with a body whose `success` is falsy, or with
a body whose `success` is truthy and which carries `newMessage`. -/
inductive PostOutcome where
  | threw (status : Option Nat)
  | refused (message : Option String)
  | accepted (newMessage : Message)
  deriving DecidableEq, Repr

/-- The value the client `sendMessage` resolves to, when it is an object. -/
structure SendOutcome where
  success : Bool
  message : Option Message
  deriving DecidableEq, Repr

/-- Result of the client `sendMessage`: the value returned (`none` for
`undefined`), the message list afterwards and the error toast shown, if any. -/
structure ClientSendResult where
  returned : Option SendOutcome
  messages : List Message
  toast : Option String
  deriving DecidableEq, Repr

/-- The function `sendMessage` of `ChatContext.jsx` (lines 115-141), on the
token of the auth context, the selected user, the message list and the outcome
of the request. -/
def Client.sendMessage (token : Option String) (selectedUser : Option User)
    (messages : List Message) (outcome : PostOutcome) : ClientSendResult :=
  if !truthy token || !truthy (selectedUser.map User._id) then ⟨none, messages, none⟩
  else
    match outcome with
    | .accepted newMessage =>
      ⟨some ⟨true, some newMessage⟩, messages ++ [newMessage], none⟩
    | .refused _ => ⟨some ⟨false, none⟩, messages, some "Failed to send message"⟩
    | .threw status =>
      ⟨some ⟨false, none⟩, messages,
        if status ≠ some 401 then some "Failed to send message" else none⟩

/-- The socket object held by the auth context, with its `connected` flag. -/
structure ClientSocket where
  connected : Bool
  deriving DecidableEq, Repr

/-- The state of `AuthProvider` that sign-out touches, with the `token` item of
`localStorage`. -/
structure AuthState where
  token : Option String
  authUser : Option User
  onlineUsers : List String
  socket : Option ClientSocket
  storedToken : Option String
  deriving DecidableEq, Repr

/-- The function `clearAuthData` of `AuthContext.jsx` (lines 26-37): the stored
token is removed, token and user are set to `null`, the online users to `[]`;
a socket, if there is one, is disconnected and dropped. -/
def clearAuthData (auth : AuthState) : AuthState :=
  { auth with
    storedToken := none
    token := none
    authUser := none
    onlineUsers := []
    socket := none }

/-- The function `logout` of `AuthContext.jsx`: `clearAuthData()` and a
toast. -/
def logout (auth : AuthState) : AuthState × String :=
  (clearAuthData auth, "Logged out successfully")

/-- The body of the effect of `ChatContext.jsx` lines 262-271, run on a change
of `authUser`. -/
def resetOnAuthUser (authUser : Option User) (state : ChatState) : ChatState :=
  match authUser with
  | none => ⟨[], [], none, [], false⟩
  | some _ => state

/-- The request of `markMessageAsSeen`: the parameter `req.params.id` and the
caller `req.user?._id` attached by the auth middleware. -/
structure MarkSeenRequest where
  id : Option String
  userId : Option String
  deriving DecidableEq, Repr

/-- The controller `markMessageAsSeen` on its request: it reads `req.params`
only. -/
def markMessageAsSeenBy (req : MarkSeenRequest) (fault : Option (Option String))
    (store : List Message) : MarkSeenResponse × List Message :=
  markMessageAsSeen req.id fault store

/-- The relation between a message store and a later one: every stored
document is still at its place, unchanged or with its `seen` flag raised from
`false` to `true`. -/
def SeenRaised (store later : List Message) : Prop :=
  ∀ (i : Nat) (msg : Message), store[i]? = some msg →
    later[i]? = some msg ∨ (msg.seen = false ∧ later[i]? = some { msg with seen := true })

/-- The invariant of the states reached by a trace in which every connection
has its own socket id. -/
structure Inv (es : List Event) (s : Server) : Prop where
  keys_nodup : s.userSocketMap.keys.Nodup
  values_nodup : s.userSocketMap.values.Nodup
  entry_live : ∀ k v, (k, v) ∈ s.userSocketMap → (⟨v, some k⟩ : Socket) ∈ s.sockets
  socket_seen : ∀ socket ∈ s.sockets, socket.id ∈ connectedIds es
  entry_last : ∀ k v, (k, v) ∈ s.userSocketMap → lastRegister es k = some v
  last_live : ∀ k v, k ≠ "__proto__" → lastRegister es k = some v →
    v ∈ s.sockets.map Socket.id → (k, v) ∈ s.userSocketMap
  no_proto : "__proto__" ∉ s.userSocketMap.keys

/-! ## The registry object: membership, keys and values -/

namespace UserSocketMap

theorem get_eq_none_iff (m : UserSocketMap) (k : String) :
    m.get k = none ↔ k ∉ m.keys := by
  induction m with
  | nil => simp [get, keys]
  | cons e rest ih =>
    obtain ⟨k', v⟩ := e
    by_cases h : k' = k
    · simp [get, keys, h]
    · have h2 : ¬ k = k' := fun h3 => h h3.symm
      simp only [keys] at ih
      simp [get, keys, h, h2, ih]

theorem mem_of_get (m : UserSocketMap) (k v : String) (h : m.get k = some v) :
    (k, v) ∈ m := by
  induction m with
  | nil => simp [get] at h
  | cons e rest ih =>
    obtain ⟨k', v'⟩ := e
    by_cases hk : k' = k
    · simp [get, hk] at h
      simp [hk, h]
    · simp [get, hk] at h
      exact List.mem_cons_of_mem _ (ih h)

theorem get_of_mem (m : UserSocketMap) (k v : String) (hn : m.keys.Nodup)
    (h : (k, v) ∈ m) : m.get k = some v := by
  induction m with
  | nil => simp at h
  | cons e rest ih =>
    obtain ⟨k', v'⟩ := e
    simp only [keys, List.map_cons, List.nodup_cons] at hn
    rcases List.mem_cons.mp h with h1 | h1
    · simp only [Prod.mk.injEq] at h1
      simp [get, h1.1, h1.2]
    · have hk : k' ≠ k := by
        intro hk
        apply hn.1
        rw [hk]
        exact List.mem_map_of_mem Prod.fst h1
      simp only [get, hk, if_false]
      exact ih hn.2 h1

theorem get_eq_some_iff (m : UserSocketMap) (k v : String) (hn : m.keys.Nodup) :
    m.get k = some v ↔ (k, v) ∈ m :=
  ⟨mem_of_get m k v, get_of_mem m k v hn⟩

theorem mem_keys_iff_get (m : UserSocketMap) (k : String) :
    k ∈ m.keys ↔ ∃ v, m.get k = some v := by
  constructor
  · intro h
    cases hg : m.get k with
    | none => exact absurd h ((get_eq_none_iff m k).mp hg)
    | some v => exact ⟨v, rfl⟩
  · rintro ⟨v, hv⟩
    exact List.mem_map_of_mem Prod.fst (mem_of_get m k v hv)

theorem keys_replaceValue (m : UserSocketMap) (k v : String) :
    (m.replaceValue k v).keys = m.keys := by
  induction m with
  | nil => rfl
  | cons e rest ih =>
    obtain ⟨k', v'⟩ := e
    simp only [keys] at ih
    by_cases h : k' = k <;> simp [replaceValue, keys, h, ih]

theorem mem_replaceValue (m : UserSocketMap) (k v : String) (hn : m.keys.Nodup)
    (hk : k ∈ m.keys) (p : String × String) :
    p ∈ m.replaceValue k v ↔ p = (k, v) ∨ (p ∈ m ∧ p.1 ≠ k) := by
  induction m with
  | nil => simp [keys] at hk
  | cons e rest ih =>
    obtain ⟨k', v'⟩ := e
    simp only [keys, List.map_cons, List.nodup_cons] at hn
    by_cases h : k' = k
    · subst h
      simp only [replaceValue, if_true, List.mem_cons]
      constructor
      · rintro (h1 | h1)
        · exact Or.inl h1
        · refine Or.inr ⟨Or.inr h1, ?_⟩
          intro h2
          apply hn.1
          rw [← h2]
          exact List.mem_map_of_mem Prod.fst h1
      · rintro (h1 | ⟨h1 | h1, h2⟩)
        · exact Or.inl h1
        · exact absurd (by rw [h1]) h2
        · exact Or.inr h1
    · have hk2 : k ∈ keys rest := by
        simp only [keys, List.map_cons, List.mem_cons] at hk
        rcases hk with hk | hk
        · exact absurd hk.symm h
        · exact hk
      simp only [replaceValue, h, if_false, List.mem_cons, ih hn.2 hk2]
      constructor
      · rintro (h1 | h1 | h1)
        · refine Or.inr ⟨Or.inl h1, ?_⟩
          rw [h1]
          exact h
        · exact Or.inl h1
        · exact Or.inr ⟨Or.inr h1.1, h1.2⟩
      · rintro (h1 | ⟨h1 | h1, h2⟩)
        · exact Or.inr (Or.inl h1)
        · exact Or.inl h1
        · exact Or.inr (Or.inr ⟨h1, h2⟩)

theorem insertNew_perm (m : UserSocketMap) (k v : String) :
    (m.insertNew k v).Perm ((k, v) :: m) := by
  induction m with
  | nil => exact List.Perm.refl _
  | cons e rest ih =>
    obtain ⟨k', v'⟩ := e
    by_cases h : keyBefore k k' = true
    · simp [insertNew, h]
    · simp only [insertNew, h]
      exact (List.Perm.cons _ ih).trans (List.Perm.swap _ _ _)

theorem mem_insertNew (m : UserSocketMap) (k v : String) (p : String × String) :
    p ∈ m.insertNew k v ↔ p = (k, v) ∨ p ∈ m := by
  rw [(insertNew_perm m k v).mem_iff, List.mem_cons]

theorem mem_defineOwn (m : UserSocketMap) (k v : String) (hn : m.keys.Nodup)
    (p : String × String) :
    p ∈ m.defineOwn k v ↔ p = (k, v) ∨ (p ∈ m ∧ p.1 ≠ k) := by
  unfold defineOwn
  cases hg : m.get k with
  | some w =>
    have hk : k ∈ m.keys := (mem_keys_iff_get m k).mpr ⟨w, hg⟩
    simpa using mem_replaceValue m k v hn hk p
  | none =>
    have hk : k ∉ m.keys := (get_eq_none_iff m k).mp hg
    simp only [Option.isSome_none, Bool.false_eq_true, if_false, mem_insertNew]
    constructor
    · rintro (h | h)
      · exact Or.inl h
      · refine Or.inr ⟨h, ?_⟩
        intro h2
        apply hk
        rw [← h2]
        exact List.mem_map_of_mem Prod.fst h
    · rintro (h | h)
      · exact Or.inl h
      · exact Or.inr h.1

theorem keys_nodup_defineOwn (m : UserSocketMap) (k v : String) (hn : m.keys.Nodup) :
    (m.defineOwn k v).keys.Nodup := by
  unfold defineOwn
  cases hg : m.get k with
  | some w =>
    simpa [keys_replaceValue] using hn
  | none =>
    have hk : k ∉ m.keys := (get_eq_none_iff m k).mp hg
    simp only [Option.isSome_none, Bool.false_eq_true, if_false]
    have hp : (m.insertNew k v).keys.Perm (k :: m.keys) := (insertNew_perm m k v).map Prod.fst
    exact hp.nodup_iff.mpr (List.nodup_cons.mpr ⟨hk, hn⟩)

theorem get_defineOwn (m : UserSocketMap) (k v k' : String) (hn : m.keys.Nodup) :
    (m.defineOwn k v).get k' = if k' = k then some v else m.get k' := by
  have hn2 := keys_nodup_defineOwn m k v hn
  by_cases h : k' = k
  · subst h
    simp only [if_true]
    exact get_of_mem _ _ _ hn2 ((mem_defineOwn m k' v hn _).mpr (Or.inl rfl))
  · simp only [h, if_false]
    cases hg : m.get k' with
    | some w =>
      apply get_of_mem _ _ _ hn2
      exact (mem_defineOwn m k v hn _).mpr (Or.inr ⟨mem_of_get m k' w hg, h⟩)
    | none =>
      rw [get_eq_none_iff]
      intro hmem
      obtain ⟨w, hw⟩ := (mem_keys_iff_get _ _).mp hmem
      rcases (mem_defineOwn m k v hn _).mp (mem_of_get _ _ _ hw) with h1 | h1
      · exact h (Prod.mk.inj h1).1
      · exact (get_eq_none_iff m k').mp hg (List.mem_map_of_mem Prod.fst h1.1)

theorem mem_delete (m : UserSocketMap) (k : String) (p : String × String) :
    p ∈ m.delete k ↔ p ∈ m ∧ p.1 ≠ k := by
  simp [delete]

theorem findBySocket_eq_none_iff (m : UserSocketMap) (id : String) :
    m.findBySocket id = none ↔ id ∉ m.values := by
  induction m with
  | nil => simp [findBySocket, values]
  | cons e rest ih =>
    obtain ⟨k', v'⟩ := e
    simp only [values] at ih
    by_cases h : v' = id
    · simp [findBySocket, values, h]
    · have h2 : ¬ id = v' := fun h3 => h h3.symm
      simp [findBySocket, values, h, h2, ih]

theorem mem_of_findBySocket (m : UserSocketMap) (id uid : String)
    (h : m.findBySocket id = some uid) : (uid, id) ∈ m := by
  induction m with
  | nil => simp [findBySocket] at h
  | cons e rest ih =>
    obtain ⟨k', v'⟩ := e
    by_cases hv : v' = id
    · simp [findBySocket, hv] at h
      simp [hv, h]
    · simp [findBySocket, hv] at h
      exact List.mem_cons_of_mem _ (ih h)

theorem mem_replaceValue_imp (m : UserSocketMap) (k v : String) (p : String × String)
    (h : p ∈ m.replaceValue k v) : p = (k, v) ∨ p ∈ m := by
  induction m with
  | nil => simp [replaceValue] at h
  | cons e rest ih =>
    obtain ⟨k', v'⟩ := e
    by_cases hk : k' = k
    · subst hk
      simp only [replaceValue, if_true, List.mem_cons] at h
      rcases h with h | h
      · exact Or.inl h
      · exact Or.inr (List.mem_cons_of_mem _ h)
    · simp only [replaceValue, hk, if_false, List.mem_cons] at h
      rcases h with h | h
      · exact Or.inr (by rw [h]; exact List.mem_cons_self _ _)
      · rcases ih h with h1 | h1
        · exact Or.inl h1
        · exact Or.inr (List.mem_cons_of_mem _ h1)

theorem mem_defineOwn_imp (m : UserSocketMap) (k v : String) (p : String × String)
    (h : p ∈ m.defineOwn k v) : p = (k, v) ∨ p ∈ m := by
  unfold defineOwn at h
  by_cases hg : (m.get k).isSome = true
  · rw [if_pos hg] at h
    exact mem_replaceValue_imp m k v p h
  · rw [if_neg hg] at h
    exact (mem_insertNew m k v p).mp h

theorem values_nodup_defineOwn (m : UserSocketMap) (k v : String) (hn : m.keys.Nodup)
    (hv : m.values.Nodup) (hfresh : v ∉ m.values) : (m.defineOwn k v).values.Nodup := by
  have hinj : ∀ p ∈ m.defineOwn k v, ∀ q ∈ m.defineOwn k v, p.2 = q.2 → p = q := by
    intro p hp q hq hpq
    rcases (mem_defineOwn m k v hn p).mp hp with h1 | h1
    · rcases (mem_defineOwn m k v hn q).mp hq with h2 | h2
      · rw [h1, h2]
      · exfalso
        apply hfresh
        have : q.2 = v := by rw [← hpq, h1]
        rw [← this]
        exact List.mem_map_of_mem Prod.snd h2.1
    · rcases (mem_defineOwn m k v hn q).mp hq with h2 | h2
      · exfalso
        apply hfresh
        have : p.2 = v := by rw [hpq, h2]
        rw [← this]
        exact List.mem_map_of_mem Prod.snd h1.1
      · exact List.inj_on_of_nodup_map hv h1.1 h2.1 hpq
  have hnd : (m.defineOwn k v).Nodup :=
    (List.Nodup.of_map Prod.fst (keys_nodup_defineOwn m k v hn))
  exact List.Nodup.map_on hinj hnd

theorem set_proto (m : UserSocketMap) (v : String) : m.set "__proto__" v = m := by
  simp [set]

theorem set_of_ne (m : UserSocketMap) (k v : String) (hk : k ≠ "__proto__") :
    m.set k v = m.defineOwn k v := by
  simp [set, hk]

theorem mem_set (m : UserSocketMap) (k v : String) (hn : m.keys.Nodup)
    (hk : k ≠ "__proto__") (p : String × String) :
    p ∈ m.set k v ↔ p = (k, v) ∨ (p ∈ m ∧ p.1 ≠ k) := by
  rw [set_of_ne m k v hk]
  exact mem_defineOwn m k v hn p

theorem keys_nodup_set (m : UserSocketMap) (k v : String) (hn : m.keys.Nodup) :
    (m.set k v).keys.Nodup := by
  by_cases hk : k = "__proto__"
  · rw [hk, set_proto]
    exact hn
  · rw [set_of_ne m k v hk]
    exact keys_nodup_defineOwn m k v hn

theorem get_set (m : UserSocketMap) (k v k' : String) (hn : m.keys.Nodup)
    (hk : k ≠ "__proto__") :
    (m.set k v).get k' = if k' = k then some v else m.get k' := by
  rw [set_of_ne m k v hk]
  exact get_defineOwn m k v k' hn

theorem mem_set_imp (m : UserSocketMap) (k v : String) (p : String × String)
    (h : p ∈ m.set k v) : p = (k, v) ∨ p ∈ m := by
  by_cases hk : k = "__proto__"
  · rw [hk, set_proto] at h
    exact Or.inr h
  · rw [set_of_ne m k v hk] at h
    exact mem_defineOwn_imp m k v p h

theorem values_nodup_set (m : UserSocketMap) (k v : String) (hn : m.keys.Nodup)
    (hv : m.values.Nodup) (hfresh : v ∉ m.values) : (m.set k v).values.Nodup := by
  by_cases hk : k = "__proto__"
  · rw [hk, set_proto]
    exact hv
  · rw [set_of_ne m k v hk]
    exact values_nodup_defineOwn m k v hn hv hfresh

theorem proto_not_mem_keys_set (m : UserSocketMap) (k v : String)
    (h : "__proto__" ∉ m.keys) : "__proto__" ∉ (m.set k v).keys := by
  intro hmem
  obtain ⟨p, hp, hp2⟩ := List.mem_map.mp hmem
  by_cases hk : k = "__proto__"
  · rw [hk, set_proto] at hp
    exact h (List.mem_map.mpr ⟨p, hp, hp2⟩)
  · rcases mem_set_imp m k v p hp with h1 | h1
    · rw [h1] at hp2
      exact hk hp2
    · exact h (List.mem_map.mpr ⟨p, h1, hp2⟩)

theorem lookup_of_get_some (m : UserSocketMap) (k v : String) (h : m.get k = some v) :
    m.lookup k = .own v := by
  simp [lookup, h]

theorem lookup_of_get_none (m : UserSocketMap) (k : String) (h : m.get k = none) :
    m.lookup k = if k ∈ protoNames then .inherited else .absent := by
  simp [lookup, h]

end UserSocketMap

/-! ## The handlers: registry mutations -/

theorem register_valid (m : UserSocketMap) (id u : String)
    (h : validUserId (some u) = true) : register m ⟨id, some u⟩ = m.set u id := by
  simp [register, h]

theorem register_invalid (m : UserSocketMap) (socket : Socket)
    (h : validUserId socket.userId = false) : register m socket = m := by
  unfold register
  cases hu : socket.userId with
  | none => rfl
  | some u =>
    rw [hu] at h
    simp [h]

theorem validUserId_eq_false_iff (userId : Option String) :
    validUserId userId = false ↔
      userId = none ∨ userId = some "" ∨ userId = some "undefined" := by
  cases userId with
  | none => simp [validUserId, truthy]
  | some u =>
    by_cases h1 : u = ""
    · simp [validUserId, truthy, h1]
    · by_cases h2 : u = "undefined"
      · simp [validUserId, truthy, h2]
      · simp [validUserId, truthy, h1, h2]

theorem mem_register_imp (m : UserSocketMap) (socket : Socket) (p : String × String)
    (h : p ∈ register m socket) :
    (socket.userId = some p.1 ∧ p.2 = socket.id) ∨ p ∈ m := by
  unfold register at h
  cases hu : socket.userId with
  | none =>
    rw [hu] at h
    exact Or.inr h
  | some u =>
    rw [hu] at h
    dsimp only at h
    by_cases hv : validUserId (some u) = true
    · rw [if_pos hv] at h
      rcases UserSocketMap.mem_set_imp m u socket.id p h with h1 | h1
      · left
        rw [h1]
        exact ⟨rfl, rfl⟩
      · exact Or.inr h1
    · rw [if_neg hv] at h
      exact Or.inr h

theorem unregister_eq_self (m : UserSocketMap) (id : String) (h : id ∉ m.values) :
    unregister m id = m := by
  simp [unregister, (UserSocketMap.findBySocket_eq_none_iff m id).mpr h]

theorem unregister_sublist (m : UserSocketMap) (id : String) :
    (unregister m id).Sublist m := by
  unfold unregister
  cases m.findBySocket id with
  | none => exact List.Sublist.refl _
  | some uid => exact List.filter_sublist _

theorem mem_unregister (m : UserSocketMap) (id : String) (hn : m.keys.Nodup)
    (hv : m.values.Nodup) (p : String × String) :
    p ∈ unregister m id ↔ p ∈ m ∧ p.2 ≠ id := by
  unfold unregister
  cases hf : m.findBySocket id with
  | none =>
    have hid := (UserSocketMap.findBySocket_eq_none_iff m id).mp hf
    constructor
    · intro hp
      refine ⟨hp, ?_⟩
      intro h2
      apply hid
      rw [← h2]
      exact List.mem_map_of_mem Prod.snd hp
    · exact fun h => h.1
  | some uid =>
    have hmem := UserSocketMap.mem_of_findBySocket m id uid hf
    simp only [UserSocketMap.mem_delete]
    constructor
    · rintro ⟨hp, hne⟩
      refine ⟨hp, ?_⟩
      intro h2
      apply hne
      have := List.inj_on_of_nodup_map hv hp hmem h2
      rw [this]
    · rintro ⟨hp, hne⟩
      refine ⟨hp, ?_⟩
      intro h2
      apply hne
      have := List.inj_on_of_nodup_map hn hp hmem h2
      rw [this]

theorem get_unregister (m : UserSocketMap) (id k : String) (hn : m.keys.Nodup)
    (hv : m.values.Nodup) :
    (unregister m id).get k = (m.get k).filter (fun v => decide (v ≠ id)) := by
  have hn2 : (unregister m id).keys.Nodup := hn.sublist ((unregister_sublist m id).map _)
  cases hg : m.get k with
  | none =>
    simp only [Option.filter]
    rw [UserSocketMap.get_eq_none_iff]
    intro hk
    exact (UserSocketMap.get_eq_none_iff m k).mp hg
      (((unregister_sublist m id).map Prod.fst).subset hk)
  | some v =>
    by_cases hvid : v = id
    · simp only [Option.filter, hvid, ne_eq, not_true_eq_false, decide_False,
        Bool.false_eq_true, if_false]
      rw [UserSocketMap.get_eq_none_iff]
      intro hk
      obtain ⟨w, hw⟩ := (UserSocketMap.mem_keys_iff_get _ _).mp hk
      have h1 := (mem_unregister m id hn hv _).mp (UserSocketMap.mem_of_get _ _ _ hw)
      have h2 := UserSocketMap.get_of_mem m k w hn h1.1
      rw [hg] at h2
      exact h1.2 (by rw [← hvid]; exact (Option.some.inj h2).symm)
    · simp only [Option.filter, ne_eq, hvid, not_false_eq_true, decide_True, if_true]
      apply UserSocketMap.get_of_mem _ _ _ hn2
      exact (mem_unregister m id hn hv _).mpr ⟨UserSocketMap.mem_of_get m k v hg, hvid⟩

/-! ## Traces -/

theorem run_snoc (s : Server) (es : List Event) (e : Event) :
    run s (es ++ [e]) = step (run s es) e := by
  simp [run, List.foldl_append]

theorem connectedIds_append (es es' : List Event) :
    connectedIds (es ++ es') = connectedIds es ++ connectedIds es' := by
  induction es with
  | nil => rfl
  | cons e rest ih =>
    cases e with
    | connection socket => simp [connectedIds, ih]
    | disconnect id => simp [connectedIds, ih]

theorem lastRegister_snoc (es : List Event) (e : Event) (k : String) :
    lastRegister (es ++ [e]) k =
      match e.registers k with
      | some id => some id
      | none => lastRegister es k := by
  simp [lastRegister, List.reverse_append, lastRegisterFrom]

theorem registers_mem_connectedIds (e : Event) (k id : String)
    (h : e.registers k = some id) : id ∈ connectedIds [e] := by
  cases e with
  | disconnect i => simp [Event.registers] at h
  | connection socket =>
    simp only [Event.registers] at h
    split at h
    · simp only [Option.some.injEq] at h
      simp [connectedIds, h]
    · simp at h

theorem lastRegister_mem_connectedIds (es : List Event) (k id : String)
    (h : lastRegister es k = some id) : id ∈ connectedIds es := by
  induction es using List.reverseRecOn with
  | nil => simp [lastRegister, lastRegisterFrom] at h
  | append_singleton es e ih =>
    rw [lastRegister_snoc] at h
    rw [connectedIds_append]
    cases hr : e.registers k with
    | some i =>
      rw [hr] at h
      simp only [Option.some.injEq] at h
      rw [← h]
      exact List.mem_append_right _ (registers_mem_connectedIds e k i hr)
    | none =>
      rw [hr] at h
      exact List.mem_append_left _ (ih h)

theorem specLookupFrom_closed (k : String) (l : List Event) (closed : List String) :
    specLookupFrom k l closed =
      (specLookupFrom k l []).filter (fun v => decide (v ∉ closed)) := by
  induction l generalizing closed with
  | nil => simp [specLookupFrom, Option.filter]
  | cons e older ih =>
    cases e with
    | disconnect id =>
      simp only [specLookupFrom]
      rw [ih (id :: closed), ih [id]]
      cases specLookupFrom k older [] with
      | none => simp [Option.filter]
      | some v =>
        by_cases h1 : v = id
        · simp [Option.filter, h1]
        · by_cases h2 : v ∈ closed
          · simp [Option.filter, h1, h2]
          · simp [Option.filter, h1, h2]
    | connection socket =>
      simp only [specLookupFrom]
      cases (Event.connection socket).registers k with
      | none => exact ih closed
      | some id =>
        by_cases h2 : id ∈ closed
        · simp [Option.filter, h2]
        · simp [Option.filter, h2]

theorem specLookup_snoc_connection (es : List Event) (socket : Socket) (k : String) :
    specLookup (es ++ [.connection socket]) k =
      match (Event.connection socket).registers k with
      | some id => some id
      | none => specLookup es k := by
  simp only [specLookup, List.reverse_append, List.reverse_cons, List.reverse_nil,
    List.nil_append, List.singleton_append, specLookupFrom]
  cases (Event.connection socket).registers k with
  | none => rfl
  | some id => simp

theorem specLookup_snoc_disconnect (es : List Event) (id k : String) :
    specLookup (es ++ [.disconnect id]) k =
      (specLookup es k).filter (fun v => decide (v ≠ id)) := by
  simp only [specLookup, List.reverse_append, List.reverse_cons, List.reverse_nil,
    List.nil_append, List.singleton_append, specLookupFrom]
  rw [specLookupFrom_closed]
  cases specLookupFrom k es.reverse [] with
  | none => rfl
  | some v => simp [Option.filter]

theorem registers_connection (socket : Socket) (k : String) :
    (Event.connection socket).registers k =
      if validUserId socket.userId = true ∧ socket.userId = some k then some socket.id
      else none := rfl

theorem inv_init : Inv [] Server.init := by
  refine ⟨?_, ?_, ?_, ?_, ?_, ?_, ?_⟩ <;>
    simp [Server.init, UserSocketMap.keys, UserSocketMap.values, lastRegister,
      lastRegisterFrom]

theorem freshIds_of_snoc (es : List Event) (e : Event) (h : FreshIds (es ++ [e])) :
    FreshIds es := by
  unfold FreshIds at *
  rw [connectedIds_append] at h
  exact (List.nodup_append.mp h).1

theorem fresh_socket_of_snoc (es : List Event) (socket : Socket)
    (h : FreshIds (es ++ [.connection socket])) : socket.id ∉ connectedIds es := by
  unfold FreshIds at h
  rw [connectedIds_append] at h
  intro hmem
  exact (List.nodup_append.mp h).2.2 hmem (by simp [connectedIds])

theorem register_proto (m : UserSocketMap) (id : String) :
    register m ⟨id, some "__proto__"⟩ = m := by
  have hv : validUserId (some "__proto__") = true := by decide
  rw [register_valid m id "__proto__" hv, UserSocketMap.set_proto]

theorem inv_step_connection (es : List Event) (s : Server) (socket : Socket)
    (hinv : Inv es s) (hfresh : socket.id ∉ connectedIds es) :
    Inv (es ++ [.connection socket]) (step s (.connection socket)) := by
  have hnotval : socket.id ∉ s.userSocketMap.values := by
    intro hmem
    obtain ⟨p, hp, hp2⟩ := List.mem_map.mp hmem
    have h1 := hinv.socket_seen _ (hinv.entry_live p.1 p.2 hp)
    apply hfresh
    rw [← hp2]
    exact h1
  have hlastne : ∀ k v, lastRegister es k = some v → v ≠ socket.id := by
    intro k v h hv
    apply hfresh
    rw [← hv]
    exact lastRegister_mem_connectedIds es k v h
  have hseen : ∀ sock ∈ (step s (.connection socket)).sockets,
      sock.id ∈ connectedIds (es ++ [.connection socket]) := by
    intro sock hsock
    simp only [step] at hsock
    rw [connectedIds_append]
    rcases List.mem_append.mp hsock with h1 | h1
    · exact List.mem_append_left _ (hinv.socket_seen _ h1)
    · rw [List.mem_singleton.mp h1]
      simp [connectedIds]
  by_cases hset : validUserId socket.userId = true ∧ socket.userId ≠ some "__proto__"
  · obtain ⟨hvalid, hnp⟩ := hset
    obtain ⟨id, userId⟩ := socket
    cases userId with
    | none => simp [validUserId, truthy] at hvalid
    | some u =>
      have hk : u ≠ "__proto__" := fun h => hnp (by rw [h])
      have hreg : register s.userSocketMap ⟨id, some u⟩ = s.userSocketMap.set u id :=
        register_valid _ _ _ hvalid
      have hregs : ∀ k, (Event.connection ⟨id, some u⟩).registers k =
          if u = k then some id else none := by
        intro k
        have hvalid2 : validUserId (some u) = true := hvalid
        rw [registers_connection]
        by_cases huk : u = k
        · subst huk
          simp [hvalid2]
        · simp [huk]
      refine ⟨?_, ?_, ?_, hseen, ?_, ?_, ?_⟩
      · simp only [step, connection, hreg]
        exact UserSocketMap.keys_nodup_set _ _ _ hinv.keys_nodup
      · simp only [step, connection, hreg]
        exact UserSocketMap.values_nodup_set _ _ _ hinv.keys_nodup hinv.values_nodup hnotval
      · intro k v hkv
        simp only [step, connection, hreg] at hkv ⊢
        rcases (UserSocketMap.mem_set _ _ _ hinv.keys_nodup hk _).mp hkv with h1 | h1
        · simp only [Prod.mk.injEq] at h1
          rw [h1.1, h1.2]
          exact List.mem_append_right _ (List.mem_singleton_self _)
        · exact List.mem_append_left _ (hinv.entry_live k v h1.1)
      · intro k v hkv
        simp only [step, connection, hreg] at hkv
        rw [lastRegister_snoc, hregs]
        rcases (UserSocketMap.mem_set _ _ _ hinv.keys_nodup hk _).mp hkv with h1 | h1
        · simp only [Prod.mk.injEq] at h1
          simp [h1.1, h1.2]
        · have hne : ¬ u = k := fun h => h1.2 h.symm
          simp only [hne, if_false]
          exact hinv.entry_last k v h1.1
      · intro k v hkp hlast hv
        rw [lastRegister_snoc, hregs] at hlast
        simp only [step, connection, hreg] at hv ⊢
        rw [UserSocketMap.mem_set _ _ _ hinv.keys_nodup hk]
        by_cases huk : u = k
        · simp only [huk, if_true, Option.some.injEq] at hlast
          left
          rw [huk, hlast]
        · simp only [huk, if_false] at hlast
          right
          refine ⟨hinv.last_live k v hkp hlast ?_, fun h => huk h.symm⟩
          simp only [List.map_append, List.map_cons, List.map_nil, List.mem_append,
            List.mem_singleton] at hv
          rcases hv with h1 | h1
          · exact h1
          · exact absurd h1 (hlastne k v hlast)
      · simp only [step, connection, hreg]
        exact UserSocketMap.proto_not_mem_keys_set _ _ _ hinv.no_proto
  · have hreg : register s.userSocketMap socket = s.userSocketMap := by
      by_cases hvalid : validUserId socket.userId = true
      · have hp : socket.userId = some "__proto__" := by
          by_contra hne
          exact hset ⟨hvalid, hne⟩
        obtain ⟨id, userId⟩ := socket
        simp only at hp
        rw [hp]
        exact register_proto _ _
      · exact register_invalid _ _ (by simpa using hvalid)
    have hregs : ∀ k, k ≠ "__proto__" → (Event.connection socket).registers k = none := by
      intro k hk
      rw [registers_connection]
      by_cases hvalid : validUserId socket.userId = true
      · have hp : socket.userId = some "__proto__" := by
          by_contra hne
          exact hset ⟨hvalid, hne⟩
        have hne : ¬ socket.userId = some k := by
          rw [hp]
          intro h
          exact hk (Option.some.inj h).symm
        simp [hne]
      · simp [hvalid]
    refine ⟨?_, ?_, ?_, hseen, ?_, ?_, ?_⟩
    · simp only [step, connection, hreg]
      exact hinv.keys_nodup
    · simp only [step, connection, hreg]
      exact hinv.values_nodup
    · intro k v hkv
      simp only [step, connection, hreg] at hkv ⊢
      exact List.mem_append_left _ (hinv.entry_live k v hkv)
    · intro k v hkv
      simp only [step, connection, hreg] at hkv
      have hk : k ≠ "__proto__" := by
        intro h
        apply hinv.no_proto
        rw [← h]
        exact List.mem_map_of_mem Prod.fst hkv
      rw [lastRegister_snoc, hregs k hk]
      exact hinv.entry_last k v hkv
    · intro k v hk hlast hv
      rw [lastRegister_snoc, hregs k hk] at hlast
      simp only [step, connection, hreg] at hv ⊢
      apply hinv.last_live k v hk hlast
      simp only [List.map_append, List.map_cons, List.map_nil, List.mem_append,
        List.mem_singleton] at hv
      rcases hv with h1 | h1
      · exact h1
      · exact absurd h1 (hlastne k v hlast)
    · simp only [step, connection, hreg]
      exact hinv.no_proto

theorem inv_step_disconnect (es : List Event) (s : Server) (id : String)
    (hinv : Inv es s) :
    Inv (es ++ [.disconnect id]) (step s (.disconnect id)) := by
  have hsub := unregister_sublist s.userSocketMap id
  have hids : connectedIds (es ++ [.disconnect id]) = connectedIds es := by
    rw [connectedIds_append]
    simp [connectedIds]
  have hlast : ∀ k, lastRegister (es ++ [.disconnect id]) k = lastRegister es k := by
    intro k
    rw [lastRegister_snoc]
    rfl
  refine ⟨?_, ?_, ?_, ?_, ?_, ?_, ?_⟩
  · simp only [step, disconnect]
    exact hinv.keys_nodup.sublist (hsub.map _)
  · simp only [step, disconnect]
    exact hinv.values_nodup.sublist (hsub.map _)
  · intro k v hkv
    simp only [step, disconnect] at hkv ⊢
    have h1 := (mem_unregister _ id hinv.keys_nodup hinv.values_nodup _).mp hkv
    rw [List.mem_filter]
    exact ⟨hinv.entry_live k v h1.1, by simpa using h1.2⟩
  · intro sock hsock
    simp only [step] at hsock
    rw [hids]
    exact hinv.socket_seen _ (List.mem_filter.mp hsock).1
  · intro k v hkv
    simp only [step, disconnect] at hkv
    rw [hlast]
    exact hinv.entry_last k v (hsub.subset hkv)
  · intro k v hk hl hv
    rw [hlast] at hl
    simp only [step, disconnect] at hv ⊢
    obtain ⟨sock, hsock, hsockid⟩ := List.mem_map.mp hv
    have hf := List.mem_filter.mp hsock
    have hne : v ≠ id := by
      rw [← hsockid]
      simpa using hf.2
    rw [mem_unregister _ id hinv.keys_nodup hinv.values_nodup]
    refine ⟨hinv.last_live k v hk hl ?_, hne⟩
    rw [← hsockid]
    exact List.mem_map_of_mem _ hf.1
  · simp only [step, disconnect]
    exact fun h => hinv.no_proto ((hsub.map Prod.fst).subset h)

theorem inv_run (es : List Event) (hfresh : FreshIds es) :
    Inv es (run Server.init es) := by
  induction es using List.reverseRecOn with
  | nil => exact inv_init
  | append_singleton es e ih =>
    rw [run_snoc]
    have ih2 := ih (freshIds_of_snoc es e hfresh)
    cases e with
    | connection socket =>
      exact inv_step_connection es _ socket ih2 (fresh_socket_of_snoc es socket hfresh)
    | disconnect id => exact inv_step_disconnect es _ id ih2

theorem run_append (s : Server) (es es' : List Event) :
    run s (es ++ es') = run (run s es) es' := by
  simp [run, List.foldl_append]

theorem run_cons (s : Server) (e : Event) (es : List Event) :
    run s (e :: es) = run (step s e) es := rfl

theorem sockets_run_subset (es : List Event) (s : Server) (socket : Socket)
    (h : socket ∈ (run s es).sockets) :
    socket ∈ s.sockets ∨ socket.id ∈ connectedIds es := by
  induction es generalizing s with
  | nil => exact Or.inl h
  | cons e rest ih =>
    rw [run_cons] at h
    rcases ih _ h with h1 | h1
    · cases e with
      | connection sock =>
        simp only [step] at h1
        rcases List.mem_append.mp h1 with h2 | h2
        · exact Or.inl h2
        · right
          rw [List.mem_singleton.mp h2]
          simp [connectedIds]
      | disconnect id =>
        simp only [step] at h1
        exact Or.inl (List.mem_filter.mp h1).1
    · right
      cases e with
      | connection sock => simp [connectedIds, h1]
      | disconnect id => simpa [connectedIds] using h1

theorem values_run_subset (es : List Event) (s : Server) (v : String)
    (h : v ∈ (run s es).userSocketMap.values) :
    v ∈ s.userSocketMap.values ∨ v ∈ connectedIds es := by
  induction es generalizing s with
  | nil => exact Or.inl h
  | cons e rest ih =>
    rw [run_cons] at h
    rcases ih _ h with h1 | h1
    · cases e with
      | connection sock =>
        simp only [step, connection] at h1
        obtain ⟨p, hp, hp2⟩ := List.mem_map.mp h1
        rcases mem_register_imp _ _ _ hp with h2 | h2
        · right
          rw [← hp2, h2.2]
          simp [connectedIds]
        · left
          rw [← hp2]
          exact List.mem_map_of_mem Prod.snd h2
      | disconnect id =>
        simp only [step, disconnect] at h1
        exact Or.inl (((unregister_sublist _ id).map Prod.snd).subset h1)
    · right
      cases e with
      | connection sock => simp [connectedIds, h1]
      | disconnect id => simpa [connectedIds] using h1

theorem keys_delete_not_mem (m : UserSocketMap) (uid : String) :
    uid ∉ (m.delete uid).keys := by
  intro h
  obtain ⟨p, hp, hp2⟩ := List.mem_map.mp h
  exact ((UserSocketMap.mem_delete m uid p).mp hp).2 hp2

theorem mem_keys_delete (m : UserSocketMap) (uid k : String) (hk : k ≠ uid) :
    k ∈ (m.delete uid).keys ↔ k ∈ m.keys := by
  constructor
  · intro h
    obtain ⟨p, hp, hp2⟩ := List.mem_map.mp h
    rw [← hp2]
    exact List.mem_map_of_mem Prod.fst ((UserSocketMap.mem_delete m uid p).mp hp).1
  · intro h
    obtain ⟨p, hp, hp2⟩ := List.mem_map.mp h
    rw [← hp2]
    apply List.mem_map_of_mem Prod.fst
    exact (UserSocketMap.mem_delete m uid p).mpr ⟨hp, by rw [hp2]; exact hk⟩

/-! ## Session registry and presence broadcast: the claims -/

theorem get_after_trace (es : List Event) (hfresh : FreshIds es) (identity : String)
    (hid : identity ≠ "__proto__") :
    (run Server.init es).userSocketMap.get identity = specLookup es identity := by
  induction es using List.reverseRecOn with
  | nil => rfl
  | append_singleton es e ih =>
    have hpre := freshIds_of_snoc es e hfresh
    have hinv := inv_run es hpre
    have ih2 := ih hpre
    rw [run_snoc]
    cases e with
    | disconnect id =>
      rw [specLookup_snoc_disconnect, ← ih2]
      simp only [step, disconnect]
      exact get_unregister _ id identity hinv.keys_nodup hinv.values_nodup
    | connection socket =>
      rw [specLookup_snoc_connection, registers_connection, ← ih2]
      simp only [step, connection]
      by_cases hvalid : validUserId socket.userId = true
      · obtain ⟨id, userId⟩ := socket
        cases userId with
        | none => simp [validUserId, truthy] at hvalid
        | some u =>
          have hvalid2 : validUserId (some u) = true := hvalid
          by_cases hu : u = "__proto__"
          · have hne : ¬ u = identity := by
              rw [hu]
              exact fun h => hid h.symm
            rw [hu, register_proto]
            simp [hu, hne, hid.symm]
          · rw [register_valid _ _ _ hvalid2,
              UserSocketMap.get_set _ _ _ _ hinv.keys_nodup hu]
            by_cases huk : identity = u
            · subst huk
              simp [hvalid2]
            · have huk2 : ¬ u = identity := fun h => huk h.symm
              simp [huk, huk2]
      · have hvalid2 : validUserId socket.userId = false := by simpa using hvalid
        rw [register_invalid _ _ hvalid2]
        simp [hvalid2]

/-- C1 as stated fails for the property names of `Object.prototype`: the
handshake with `userId` `__proto__` passes the guard, yet the assignment
creates no entry and the lookup of `__proto__` yields the inherited value, not
the socket id of that register; and with no register at all the lookup of
`constructor` yields the inherited value, not absent. -/
theorem lookup_after_trace_counterexample :
    FreshIds [.connection ⟨"s1", some "__proto__"⟩] ∧
      validUserId (some "__proto__") = true ∧
      specLookup [.connection ⟨"s1", some "__proto__"⟩] "__proto__" = some "s1" ∧
      (run Server.init [.connection ⟨"s1", some "__proto__"⟩]).userSocketMap.lookup
        "__proto__" = .inherited ∧
      specLookup [] "constructor" = none ∧
      (run Server.init []).userSocketMap.lookup "constructor" = .inherited := by
  refine ⟨?_, ?_, ?_, ?_, ?_, ?_⟩
  · unfold FreshIds
    decide
  · decide
  · decide
  · decide
  · decide
  · decide

/-- C1, amended: for every trace of connection and disconnect events from the
empty registry in which every connection has its own socket id, and every
identity that is no property name of `Object.prototype`, the lookup
`userSocketMap[identity]` after the trace is the socket id of the most recent
register for that identity, or absent when that socket was unregistered
afterwards or no register occurred.  For `__proto__` the lookup always yields
the inherited value; for the other inherited names it yields the registered
socket id, and the inherited value instead of absent. -/
theorem lookup_after_trace (es : List Event) (hfresh : FreshIds es) (identity : String) :
    (identity ∉ UserSocketMap.protoNames →
        (run Server.init es).userSocketMap.lookup identity =
          match specLookup es identity with
          | some socketId => .own socketId
          | none => .absent) ∧
      (run Server.init es).userSocketMap.lookup identity =
        if identity = "__proto__" then .inherited
        else
          match specLookup es identity with
          | some socketId => .own socketId
          | none => if identity ∈ UserSocketMap.protoNames then .inherited else .absent := by
  have hfull : (run Server.init es).userSocketMap.lookup identity =
      if identity = "__proto__" then .inherited
      else
        match specLookup es identity with
        | some socketId => .own socketId
        | none =>
          if identity ∈ UserSocketMap.protoNames then .inherited else .absent := by
    by_cases hid : identity = "__proto__"
    · have hnone : (run Server.init es).userSocketMap.get identity = none := by
        rw [UserSocketMap.get_eq_none_iff, hid]
        exact (inv_run es hfresh).no_proto
      rw [UserSocketMap.lookup_of_get_none _ _ hnone, if_pos hid, if_pos]
      rw [hid]
      decide
    · rw [if_neg hid, ← get_after_trace es hfresh identity hid]
      cases hg : (run Server.init es).userSocketMap.get identity with
      | some v => exact UserSocketMap.lookup_of_get_some _ _ _ hg
      | none => exact UserSocketMap.lookup_of_get_none _ _ hg
  refine ⟨?_, hfull⟩
  intro hnp
  have hid : identity ≠ "__proto__" := by
    intro h
    apply hnp
    rw [h]
    decide
  rw [hfull, if_neg hid]
  cases specLookup es identity with
  | some v => rfl
  | none => simp [hnp]

/-- Witness of the amended C1: identity `A` connects as `s1`, again as `s2`,
then `s1` disconnects. -/
theorem lookup_after_trace_witness :
    (run Server.init [.connection ⟨"s1", some "A"⟩, .connection ⟨"s2", some "A"⟩,
        .disconnect "s1"]).userSocketMap.lookup "A" =
      match specLookup [.connection ⟨"s1", some "A"⟩, .connection ⟨"s2", some "A"⟩,
        .disconnect "s1"] "A" with
      | some socketId => .own socketId
      | none => .absent :=
  (lookup_after_trace _ (by unfold FreshIds; decide) "A").1 (by decide)

/-- C2 as stated fails for the identity `__proto__`: its handshakes pass the
guard but create no entry, so after register with `s1` and register with `s2`
the registry holds no entry for it. -/
theorem unregister_superseded_counterexample :
    validUserId (some "__proto__") = true ∧
      (connection (connection [] ⟨"s1", some "__proto__"⟩).1
        ⟨"s2", some "__proto__"⟩).1.keys.count "__proto__" = 0 ∧
      (connection (connection [] ⟨"s1", some "__proto__"⟩).1
        ⟨"s2", some "__proto__"⟩).1.get "__proto__" = none := by
  decide

/-- C2, amended: unregistering a superseded handle is a no-op.  In a registry
in which `h1` is a fresh socket id, for every identity `A` other than
`__proto__`, after a connection of `A` with socket `h1` and a connection of `A`
with a different socket `h2`, the disconnect of `h1` leaves the registry
exactly as it was, and the registry holds exactly one entry for `A`, with value
`h2`. -/
theorem unregister_superseded (m : UserSocketMap) (A h1 h2 : String)
    (hn : m.keys.Nodup) (hA : validUserId (some A) = true) (hproto : A ≠ "__proto__")
    (hne : h1 ≠ h2) (hfresh : h1 ∉ m.values) :
    (disconnect (connection (connection m ⟨h1, some A⟩).1 ⟨h2, some A⟩).1 h1).1 =
        (connection (connection m ⟨h1, some A⟩).1 ⟨h2, some A⟩).1 ∧
      (connection (connection m ⟨h1, some A⟩).1 ⟨h2, some A⟩).1.get A = some h2 ∧
      (connection (connection m ⟨h1, some A⟩).1 ⟨h2, some A⟩).1.keys.count A = 1 := by
  simp only [connection, disconnect, register_valid _ _ _ hA]
  have hn1 := UserSocketMap.keys_nodup_set m A h1 hn
  have hn2 := UserSocketMap.keys_nodup_set (m.set A h1) A h2 hn1
  have hget : ((m.set A h1).set A h2).get A = some h2 := by
    rw [UserSocketMap.get_set _ _ _ _ hn1 hproto]
    simp
  refine ⟨?_, hget, ?_⟩
  · apply unregister_eq_self
    intro hmem
    obtain ⟨p, hp, hp2⟩ := List.mem_map.mp hmem
    rcases (UserSocketMap.mem_set _ _ _ hn1 hproto p).mp hp with h | h
    · rw [h] at hp2
      exact hne hp2.symm
    · rcases (UserSocketMap.mem_set _ _ _ hn hproto p).mp h.1 with h3 | h3
      · rw [h3] at h
        exact h.2 rfl
      · apply hfresh
        rw [← hp2]
        exact List.mem_map_of_mem Prod.snd h3.1
  · exact List.count_eq_one_of_mem hn2
      ((UserSocketMap.mem_keys_iff_get _ _).mpr ⟨h2, hget⟩)

/-- Witness of the amended C2: identity `A` with sockets `s1` then `s2`, next to
an entry of another identity. -/
theorem unregister_superseded_witness :
    (disconnect (connection (connection [("B", "s0")] ⟨"s1", some "A"⟩).1
        ⟨"s2", some "A"⟩).1 "s1").1 =
        (connection (connection [("B", "s0")] ⟨"s1", some "A"⟩).1 ⟨"s2", some "A"⟩).1 ∧
      (connection (connection [("B", "s0")] ⟨"s1", some "A"⟩).1
        ⟨"s2", some "A"⟩).1.get "A" = some "s2" ∧
      (connection (connection [("B", "s0")] ⟨"s1", some "A"⟩).1
        ⟨"s2", some "A"⟩).1.keys.count "A" = 1 :=
  unregister_superseded [("B", "s0")] "A" "s1" "s2" (by decide) (by decide) (by decide)
    (by decide) (by decide)

/-- C3: after a connection event and after a disconnect event the payload of
the `getOnlineUsers` broadcast is exactly the list of keys of `userSocketMap` as
it stands after the mutation of that event; the identity whose entry the
disconnect removed is not in the payload, and every other identity is in the
payload exactly when it was a key before. -/
theorem broadcast_payload (m : UserSocketMap) (socket : Socket) (socketId : String) :
    (connection m socket).2 = (connection m socket).1.keys ∧
      (disconnect m socketId).2 = (disconnect m socketId).1.keys ∧
      ∀ uid, m.findBySocket socketId = some uid →
        uid ∉ (disconnect m socketId).2 ∧
        ∀ k, k ≠ uid → (k ∈ (disconnect m socketId).2 ↔ k ∈ m.keys) := by
  refine ⟨rfl, rfl, ?_⟩
  intro uid huid
  simp only [disconnect, unregister, huid]
  exact ⟨keys_delete_not_mem m uid, fun k hk => mem_keys_delete m uid k hk⟩

/-- Witness of C3: the socket of `A` disconnects while `B` stays. -/
theorem broadcast_payload_witness :
    "A" ∉ (disconnect [("A", "s1"), ("B", "s2")] "s1").2 ∧
      ∀ k, k ≠ "A" →
        (k ∈ (disconnect [("A", "s1"), ("B", "s2")] "s1").2 ↔
          k ∈ UserSocketMap.keys [("A", "s1"), ("B", "s2")]) :=
  (broadcast_payload [("A", "s1"), ("B", "s2")] ⟨"s3", some "C"⟩ "s1").2.2 "A"
    (by decide)

/-- C4: in every state reached from the empty registry by a trace in which
every connection has its own socket id, every entry of `userSocketMap` holds
the id of a socket that is still connected (and that handshook with the key of
the entry); no entry holds the id of a socket that has disconnected. -/
theorem registry_entries_live (es : List Event) (hfresh : FreshIds es) :
    (∀ k v, (k, v) ∈ (run Server.init es).userSocketMap →
        (⟨v, some k⟩ : Socket) ∈ (run Server.init es).sockets) ∧
      ∀ pre post id, es = pre ++ Event.disconnect id :: post → id ∈ connectedIds pre →
        id ∉ (run Server.init es).userSocketMap.values := by
  have hinv := inv_run es hfresh
  refine ⟨hinv.entry_live, ?_⟩
  intro pre post id hes hpre hmem
  obtain ⟨p, hp, hp2⟩ := List.mem_map.mp hmem
  have hlive := hinv.entry_live p.1 p.2 hp
  rw [hp2] at hlive
  have hrun : run Server.init es =
      run (step (run Server.init pre) (.disconnect id)) post := by
    rw [hes, run_append, run_cons]
  rw [hrun] at hlive
  rcases sockets_run_subset post _ _ hlive with h1 | h1
  · simp only [step] at h1
    have := (List.mem_filter.mp h1).2
    simp at this
  · have hnd : (connectedIds es).Nodup := hfresh
    rw [hes, connectedIds_append] at hnd
    have hdis := (List.nodup_append.mp hnd).2.2
    exact hdis hpre (by simpa [connectedIds] using h1)

/-- Witness of C4: `A` connects twice and its first socket disconnects. -/
theorem registry_entries_live_witness :
    (∀ k v, (k, v) ∈ (run Server.init [.connection ⟨"s1", some "A"⟩,
          .connection ⟨"s2", some "A"⟩, .disconnect "s1"]).userSocketMap →
        (⟨v, some k⟩ : Socket) ∈ (run Server.init [.connection ⟨"s1", some "A"⟩,
          .connection ⟨"s2", some "A"⟩, .disconnect "s1"]).sockets) ∧
      ∀ pre post id,
        [Event.connection ⟨"s1", some "A"⟩, .connection ⟨"s2", some "A"⟩,
          .disconnect "s1"] = pre ++ Event.disconnect id :: post →
        id ∈ connectedIds pre →
        id ∉ (run Server.init [.connection ⟨"s1", some "A"⟩,
          .connection ⟨"s2", some "A"⟩, .disconnect "s1"]).userSocketMap.values :=
  registry_entries_live _ (by unfold FreshIds; decide)

/-- C5 as stated fails: after `A` connects as `s1`, connects again as `s2`, and
`s2` disconnects, the socket `s1` that handshook with `A` is still connected
while `A` is no key of `userSocketMap`. -/
theorem presence_iff_live_counterexample :
    FreshIds [.connection ⟨"s1", some "A"⟩, .connection ⟨"s2", some "A"⟩,
        .disconnect "s2"] ∧
      (⟨"s1", some "A"⟩ : Socket) ∈ (run Server.init [.connection ⟨"s1", some "A"⟩,
        .connection ⟨"s2", some "A"⟩, .disconnect "s2"]).sockets ∧
      "A" ∉ (run Server.init [.connection ⟨"s1", some "A"⟩,
        .connection ⟨"s2", some "A"⟩, .disconnect "s2"]).userSocketMap.keys := by
  refine ⟨?_, ?_, ?_⟩
  · unfold FreshIds
    decide
  · decide
  · decide

/-- C5, amended: after every trace from the empty registry in which every
connection has its own socket id, an identity other than `__proto__` is a key
of `userSocketMap` if and only if the socket of its most recent register is
still connected; `__proto__` is never a key. -/
theorem presence_iff_latest_live (es : List Event) (hfresh : FreshIds es)
    (identity : String) :
    (identity ≠ "__proto__" →
        (identity ∈ (run Server.init es).userSocketMap.keys ↔
          ∃ id, lastRegister es identity = some id ∧
            id ∈ (run Server.init es).sockets.map Socket.id)) ∧
      "__proto__" ∉ (run Server.init es).userSocketMap.keys := by
  have hinv := inv_run es hfresh
  refine ⟨?_, hinv.no_proto⟩
  intro hid
  constructor
  · intro h
    obtain ⟨p, hp, hp2⟩ := List.mem_map.mp h
    refine ⟨p.2, ?_, ?_⟩
    · rw [← hp2]
      exact hinv.entry_last p.1 p.2 hp
    · exact List.mem_map.mpr ⟨_, hinv.entry_live p.1 p.2 hp, rfl⟩
  · rintro ⟨id, hlast, hlive⟩
    exact List.mem_map.mpr ⟨_, hinv.last_live identity id hid hlast hlive, rfl⟩

/-- Witness of the amended C5, on the trace of the counterexample. -/
theorem presence_iff_latest_live_witness :
    "A" ∈ (run Server.init [.connection ⟨"s1", some "A"⟩, .connection ⟨"s2", some "A"⟩,
        .disconnect "s2"]).userSocketMap.keys ↔
      ∃ id, lastRegister [.connection ⟨"s1", some "A"⟩, .connection ⟨"s2", some "A"⟩,
          .disconnect "s2"] "A" = some id ∧
        id ∈ (run Server.init [.connection ⟨"s1", some "A"⟩,
          .connection ⟨"s2", some "A"⟩, .disconnect "s2"]).sockets.map Socket.id :=
  (presence_iff_latest_live _ (by unfold FreshIds; decide) "A").1 (by decide)

/-- C6: a handshake whose `userId` is missing, empty or the string
`undefined` is not registered.  From every state, the connection handler leaves
`userSocketMap` unchanged, and so does the disconnect of that socket, whether
it follows at once or after any further events of other sockets. -/
theorem invalid_handshake_not_registered (s : Server) (socket : Socket)
    (es : List Event)
    (h : socket.userId = none ∨ socket.userId = some "" ∨
      socket.userId = some "undefined")
    (hfresh : socket.id ∉ s.userSocketMap.values)
    (hes : socket.id ∉ connectedIds es) :
    (connection s.userSocketMap socket).1 = s.userSocketMap ∧
      (disconnect (connection s.userSocketMap socket).1 socket.id).1 =
        s.userSocketMap ∧
      (step (run (step s (.connection socket)) es)
          (.disconnect socket.id)).userSocketMap =
        (run (step s (.connection socket)) es).userSocketMap := by
  have hreg : register s.userSocketMap socket = s.userSocketMap :=
    register_invalid _ _ ((validUserId_eq_false_iff _).mpr h)
  refine ⟨?_, ?_, ?_⟩
  · simp only [connection, hreg]
  · simp only [connection, disconnect, hreg]
    exact unregister_eq_self _ _ hfresh
  · simp only [step, disconnect]
    apply unregister_eq_self
    intro hmem
    rcases values_run_subset es _ _ hmem with h1 | h1
    · simp only [connection, hreg] at h1
      exact hfresh h1
    · exact hes h1

/-- Witness of C6: a socket with `userId` `undefined` joins a registry of one
entry; another identity connects before the socket disconnects. -/
theorem invalid_handshake_not_registered_witness :
    (connection [("A", "s1")] ⟨"s2", some "undefined"⟩).1 = [("A", "s1")] ∧
      (disconnect (connection [("A", "s1")] ⟨"s2", some "undefined"⟩).1 "s2").1 =
        [("A", "s1")] ∧
      (step (run (step ⟨[("A", "s1")], [⟨"s1", some "A"⟩]⟩
          (.connection ⟨"s2", some "undefined"⟩)) [.connection ⟨"s3", some "B"⟩])
          (.disconnect "s2")).userSocketMap =
        (run (step ⟨[("A", "s1")], [⟨"s1", some "A"⟩]⟩
          (.connection ⟨"s2", some "undefined"⟩))
          [.connection ⟨"s3", some "B"⟩]).userSocketMap :=
  invalid_handshake_not_registered ⟨[("A", "s1")], [⟨"s1", some "A"⟩]⟩
    ⟨"s2", some "undefined"⟩ [.connection ⟨"s3", some "B"⟩] (by decide) (by decide)
    (by decide)

/-! ## Message delivery: the claims about `sendMessage` -/

theorem truthy_eq_false_iff (x : Option String) :
    truthy x = false ↔ x = none ∨ x = some "" := by
  cases x with
  | none => simp [truthy]
  | some v => simp [truthy]

theorem truthy_eq_true_iff (x : Option String) :
    truthy x = true ↔ ∃ v, x = some v ∧ v ≠ "" := by
  cases x with
  | none => simp [truthy]
  | some v => simp [truthy]

/-- The result of `sendMessage` on a request that passes both guards, whose
upload step ends with `imageUrl` and whose document the store persists. -/
theorem sendMessage_persisted (req : SendRequest) (env : Outside)
    (store : List Message) (m : UserSocketMap) (imageUrl : Option String)
    (_id : String) (createdAt : Nat)
    (hr : truthy req.receiverId = true) (hs : truthy req.senderId = true)
    (hc : truthy req.text = true ∨ truthy req.image = true)
    (hu : uploadStep req.image env.upload = some imageUrl)
    (hp : env.persist = .created _id createdAt) :
    sendMessage req env store m =
      ⟨⟨200, true, none, some ⟨_id, req.senderId.getD "", req.receiverId.getD "",
          if truthy req.text then req.text.getD "" else "", imageUrl, false, createdAt⟩⟩,
        store ++ [⟨_id, req.senderId.getD "", req.receiverId.getD "",
          if truthy req.text then req.text.getD "" else "", imageUrl, false, createdAt⟩],
        if truthy (m.get (req.receiverId.getD "")) then
          [((m.get (req.receiverId.getD "")).getD "",
            ⟨_id, req.senderId.getD "", req.receiverId.getD "",
              if truthy req.text then req.text.getD "" else "", imageUrl, false,
              createdAt⟩)]
        else []⟩ := by
  have hc2 : ¬ (truthy req.text = false ∧ truthy req.image = false) := by
    rintro ⟨h1, h2⟩
    rcases hc with h | h
    · rw [h1] at h
      exact Bool.false_ne_true h
    · rw [h2] at h
      exact Bool.false_ne_true h
  unfold sendMessage
  simp only [hr, hs, Bool.not_true, Bool.or_self, Bool.false_eq_true, if_false]
  rw [if_neg (by simpa using hc2)]
  simp only [hu, hp, Message.create]

/-- A successful response of `sendMessage` comes from the last branch only:
both guards passed, the upload step ended and the store persisted the
document. -/
theorem sendMessage_success_inv (req : SendRequest) (env : Outside)
    (store : List Message) (m : UserSocketMap)
    (h : (sendMessage req env store m).response.success = true) :
    truthy req.receiverId = true ∧ truthy req.senderId = true ∧
      (truthy req.text = true ∨ truthy req.image = true) ∧
      (∃ imageUrl, uploadStep req.image env.upload = some imageUrl) ∧
      ∃ _id createdAt, env.persist = .created _id createdAt := by
  unfold sendMessage at h
  split at h
  · simp at h
  · rename_i h1
    split at h
    · simp at h
    · rename_i h2
      split at h
      · simp at h
      · rename_i imageUrl hu
        split at h
        · simp at h
        · rename_i _id createdAt hp
          simp only [Bool.or_eq_true, Bool.not_eq_true', not_or, Bool.not_eq_false] at h1
          simp only [Bool.and_eq_true, Bool.not_eq_true', not_and, Bool.not_eq_false] at h2
          refine ⟨h1.1, h1.2, ?_, ⟨imageUrl, hu⟩, ⟨_id, createdAt, hp⟩⟩
          cases ht : truthy req.text with
          | true => exact Or.inl rfl
          | false => exact Or.inr (h2 ht)

/-- C7: a send request whose body has neither text nor image (each absent or
empty) is rejected with status 400 before persistence: the message store is
unchanged, no message is returned and nothing is pushed to any socket. -/
theorem sendMessage_rejects_empty (req : SendRequest) (env : Outside)
    (store : List Message) (m : UserSocketMap)
    (ht : req.text = none ∨ req.text = some "")
    (hi : req.image = none ∨ req.image = some "") :
    (sendMessage req env store m).response.status = 400 ∧
      (sendMessage req env store m).response.success = false ∧
      (sendMessage req env store m).response.newMessage = none ∧
      (sendMessage req env store m).store = store ∧
      (sendMessage req env store m).emitted = [] := by
  have ht2 := (truthy_eq_false_iff _).mpr ht
  have hi2 := (truthy_eq_false_iff _).mpr hi
  unfold sendMessage
  split
  · exact ⟨rfl, rfl, rfl, rfl, rfl⟩
  · simp [ht2, hi2]

/-- Witness of C7: an empty text and no image. -/
theorem sendMessage_rejects_empty_witness :
    (sendMessage ⟨some "", none, some "B", some "A"⟩
        ⟨fun _ => .done (some "url"), .created "m1" 1⟩ [] [("B", "s1")]).response.status
        = 400 ∧
      (sendMessage ⟨some "", none, some "B", some "A"⟩
        ⟨fun _ => .done (some "url"), .created "m1" 1⟩ [] [("B", "s1")]).response.success
        = false ∧
      (sendMessage ⟨some "", none, some "B", some "A"⟩
        ⟨fun _ => .done (some "url"), .created "m1" 1⟩ []
        [("B", "s1")]).response.newMessage = none ∧
      (sendMessage ⟨some "", none, some "B", some "A"⟩
        ⟨fun _ => .done (some "url"), .created "m1" 1⟩ [] [("B", "s1")]).store = [] ∧
      (sendMessage ⟨some "", none, some "B", some "A"⟩
        ⟨fun _ => .done (some "url"), .created "m1" 1⟩ [] [("B", "s1")]).emitted = [] :=
  sendMessage_rejects_empty _ _ _ _ (Or.inr rfl) (Or.inl rfl)

/-- C8 as stated fails: a request carrying both the text `hi` and an image is
not rejected; with a successful upload it is answered with success and one
message carrying both is persisted. -/
theorem sendMessage_exactly_one_counterexample :
    sendMessage ⟨some "hi", some "img", some "B", some "A"⟩
        ⟨fun _ => .done (some "url"), .created "m1" 1⟩ [] [] =
      ⟨⟨200, true, none, some ⟨"m1", "A", "B", "hi", some "url", false, 1⟩⟩,
        [⟨"m1", "A", "B", "hi", some "url", false, 1⟩], []⟩ := by
  decide

/-- C8, amended: `sendMessage` validates that at least one of text and image
is present.  With sender and receiver ids present it answers status 400 exactly
when text and image are both missing or empty; a request carrying both a
non-empty text and an image passes the validation, and when the upload and the
store succeed one message carrying that text and the uploaded image is
persisted and returned with success. -/
theorem sendMessage_validation (req : SendRequest) (env : Outside)
    (store : List Message) (m : UserSocketMap)
    (hr : truthy req.receiverId = true) (hs : truthy req.senderId = true) :
    ((sendMessage req env store m).response.status = 400 ↔
        truthy req.text = false ∧ truthy req.image = false) ∧
      ∀ text imageUrl _id createdAt, req.text = some text → text ≠ "" →
        truthy req.image = true →
        uploadStep req.image env.upload = some imageUrl →
        env.persist = .created _id createdAt →
        (sendMessage req env store m).response =
            ⟨200, true, none, some ⟨_id, req.senderId.getD "", req.receiverId.getD "",
              text, imageUrl, false, createdAt⟩⟩ ∧
          (sendMessage req env store m).store =
            store ++ [⟨_id, req.senderId.getD "", req.receiverId.getD "",
              text, imageUrl, false, createdAt⟩] := by
  constructor
  · constructor
    · intro h
      unfold sendMessage at h
      simp only [hr, hs, Bool.not_true, Bool.or_self, Bool.false_eq_true, if_false] at h
      split at h
      · rename_i h2
        simpa using h2
      · exfalso
        split at h
        · simp at h
        · split at h <;> simp at h
    · rintro ⟨h1, h2⟩
      unfold sendMessage
      simp [hr, hs, h1, h2]
  · intro text imageUrl _id createdAt htext hne himg hu hp
    have ht2 : truthy (some text) = true := by simp [truthy, hne]
    have ht : truthy req.text = true := by rw [htext]; exact ht2
    rw [sendMessage_persisted req env store m imageUrl _id createdAt hr hs (Or.inl ht) hu hp]
    simp [htext, ht2]

/-- Witness of the amended C8, on the request of the counterexample. -/
theorem sendMessage_validation_witness :
    ((sendMessage ⟨some "hi", some "img", some "B", some "A"⟩
          ⟨fun _ => .done (some "url"), .created "m1" 1⟩ [] []).response.status = 400 ↔
        truthy (some "hi") = false ∧ truthy (some "img") = false) ∧
      (sendMessage ⟨some "hi", some "img", some "B", some "A"⟩
          ⟨fun _ => .done (some "url"), .created "m1" 1⟩ [] []).store =
        [] ++ [⟨"m1", "A", "B", "hi", some "url", false, 1⟩] :=
  ⟨(sendMessage_validation ⟨some "hi", some "img", some "B", some "A"⟩
      ⟨fun _ => .done (some "url"), .created "m1" 1⟩ [] [] (by decide) (by decide)).1,
    ((sendMessage_validation ⟨some "hi", some "img", some "B", some "A"⟩
      ⟨fun _ => .done (some "url"), .created "m1" 1⟩ [] [] (by decide) (by decide)).2
      "hi" (some "url") "m1" 1 rfl (by decide) (by decide) (by decide) rfl).2⟩

/-- C9: for every send that persists a message (the response is a success),
in a registry whose socket ids are non-empty strings, the `newMessage` event
carrying exactly the persisted message is pushed to the socket id that
`userSocketMap` holds for the receiver and to no other socket; when the
registry has no entry for the receiver, nothing is pushed. -/
theorem push_to_registered_socket (req : SendRequest) (env : Outside)
    (store : List Message) (m : UserSocketMap)
    (hne : ∀ v ∈ m.values, v ≠ "")
    (h : (sendMessage req env store m).response.success = true) :
    ∃ msg receiverId, req.receiverId = some receiverId ∧
      (sendMessage req env store m).response.newMessage = some msg ∧
      (sendMessage req env store m).store = store ++ [msg] ∧
      (sendMessage req env store m).emitted =
        match m.get receiverId with
        | some socketId => [(socketId, msg)]
        | none => [] := by
  obtain ⟨hr, hs, hc, ⟨imageUrl, hu⟩, _id, createdAt, hp⟩ :=
    sendMessage_success_inv req env store m h
  obtain ⟨receiverId, hrec, -⟩ := (truthy_eq_true_iff _).mp hr
  rw [sendMessage_persisted req env store m imageUrl _id createdAt hr hs hc hu hp]
  refine ⟨_, receiverId, hrec, rfl, rfl, ?_⟩
  simp only [hrec, Option.getD_some]
  cases hg : m.get receiverId with
  | none => simp [truthy]
  | some socketId =>
    have hmem : socketId ∈ m.values :=
      List.mem_map_of_mem Prod.snd (UserSocketMap.mem_of_get m receiverId socketId hg)
    simp [truthy, hne socketId hmem]

/-- Witness of C9: `A` sends `hi` to `B`, who is registered with socket `s1`. -/
theorem push_to_registered_socket_witness :
    ∃ msg receiverId, (some "B" : Option String) = some receiverId ∧
      (sendMessage ⟨some "hi", none, some "B", some "A"⟩
        ⟨fun _ => .threw, .created "m1" 1⟩ []
        [("B", "s1"), ("C", "s2")]).response.newMessage = some msg ∧
      (sendMessage ⟨some "hi", none, some "B", some "A"⟩
        ⟨fun _ => .threw, .created "m1" 1⟩ [] [("B", "s1"), ("C", "s2")]).store =
        [] ++ [msg] ∧
      (sendMessage ⟨some "hi", none, some "B", some "A"⟩
        ⟨fun _ => .threw, .created "m1" 1⟩ [] [("B", "s1"), ("C", "s2")]).emitted =
        match UserSocketMap.get [("B", "s1"), ("C", "s2")] receiverId with
        | some socketId => [(socketId, msg)]
        | none => [] :=
  push_to_registered_socket ⟨some "hi", none, some "B", some "A"⟩
    ⟨fun _ => .threw, .created "m1" 1⟩ [] [("B", "s1"), ("C", "s2")] (by decide)
    (by decide)

theorem sendMessagePush_persisted (pushFault : Option (Option String))
    (req : SendRequest) (env : Outside) (store : List Message) (m : UserSocketMap)
    (imageUrl : Option String) (_id : String) (createdAt : Nat)
    (hr : truthy req.receiverId = true) (hs : truthy req.senderId = true)
    (hc : truthy req.text = true ∨ truthy req.image = true)
    (hu : uploadStep req.image env.upload = some imageUrl)
    (hp : env.persist = .created _id createdAt) :
    sendMessagePush pushFault req env store m =
      if (m.lookup (req.receiverId.getD "")).truthy then
        match pushFault with
        | some message =>
          ⟨⟨500, false,
            some (if truthy message then message.getD "" else "Internal server error"),
            none⟩,
            store ++ [⟨_id, req.senderId.getD "", req.receiverId.getD "",
              if truthy req.text then req.text.getD "" else "", imageUrl, false, createdAt⟩],
            []⟩
        | none =>
          ⟨⟨200, true, none, some ⟨_id, req.senderId.getD "", req.receiverId.getD "",
              if truthy req.text then req.text.getD "" else "", imageUrl, false, createdAt⟩⟩,
            store ++ [⟨_id, req.senderId.getD "", req.receiverId.getD "",
              if truthy req.text then req.text.getD "" else "", imageUrl, false, createdAt⟩],
            (m.lookup (req.receiverId.getD "")).rooms.map (fun socketId =>
              (socketId, ⟨_id, req.senderId.getD "", req.receiverId.getD "",
                if truthy req.text then req.text.getD "" else "", imageUrl, false,
                createdAt⟩))⟩
      else
        ⟨⟨200, true, none, some ⟨_id, req.senderId.getD "", req.receiverId.getD "",
            if truthy req.text then req.text.getD "" else "", imageUrl, false, createdAt⟩⟩,
          store ++ [⟨_id, req.senderId.getD "", req.receiverId.getD "",
            if truthy req.text then req.text.getD "" else "", imageUrl, false, createdAt⟩],
          []⟩ := by
  have hc2 : ¬ (truthy req.text = false ∧ truthy req.image = false) := by
    rintro ⟨h1, h2⟩
    rcases hc with h | h
    · rw [h1] at h
      exact Bool.false_ne_true h
    · rw [h2] at h
      exact Bool.false_ne_true h
  unfold sendMessagePush
  simp only [hr, hs, Bool.not_true, Bool.or_self, Bool.false_eq_true, if_false]
  rw [if_neg (by simpa using hc2)]
  simp only [hu, hp, Message.create]

theorem sendMessagePush_none (req : SendRequest) (env : Outside)
    (store : List Message) (m : UserSocketMap) :
    sendMessagePush none req env store m = sendMessage req env store m := by
  unfold sendMessagePush sendMessage
  split
  · rfl
  · split
    · rfl
    · split
      · rfl
      · split
        · rfl
        · simp only [Message.create]
          cases hg : m.get (req.receiverId.getD "") with
          | none =>
            rw [UserSocketMap.lookup_of_get_none _ _ hg]
            by_cases hin : req.receiverId.getD "" ∈ UserSocketMap.protoNames
            · simp [hin, UserSocketMap.Lookup.truthy, UserSocketMap.Lookup.rooms, truthy]
            · simp [hin, UserSocketMap.Lookup.truthy, truthy]
          | some v =>
            rw [UserSocketMap.lookup_of_get_some _ _ _ hg]
            by_cases hv : v = ""
            · simp [hv, UserSocketMap.Lookup.truthy, truthy]
            · simp [hv, UserSocketMap.Lookup.truthy, UserSocketMap.Lookup.rooms, truthy]

theorem sendMessagePush_store (pushFault : Option (Option String))
    (req : SendRequest) (env : Outside) (store : List Message) (m : UserSocketMap) :
    (sendMessagePush pushFault req env store m).store =
      (sendMessagePush none req env store m).store := by
  unfold sendMessagePush
  split
  · rfl
  · split
    · rfl
    · split
      · rfl
      · split
        · rfl
        · dsimp only
          by_cases ht : (m.lookup (req.receiverId.getD "")).truthy = true
          · rw [if_pos ht, if_pos ht]
            cases pushFault <;> rfl
          · rw [if_neg ht, if_neg ht]

theorem sendMessage_registry_indep (req : SendRequest) (env : Outside)
    (store : List Message) (m1 m2 : UserSocketMap) :
    (sendMessage req env store m1).response = (sendMessage req env store m2).response ∧
      (sendMessage req env store m1).store = (sendMessage req env store m2).store := by
  constructor
  · unfold sendMessage
    split
    · rfl
    · split
      · rfl
      · split
        · rfl
        · split <;> rfl
  · unfold sendMessage
    split
    · rfl
    · split
      · rfl
      · split
        · rfl
        · split <;> rfl

/-- C10 as stated fails: `A` sends `hi` to `B`, who is registered with socket
`s1`; the message is persisted, the push throws, and the response to the sender
is the error with status 500, not the success with the persisted message. -/
theorem push_failure_counterexample :
    sendMessagePush (some (some "emit failed")) ⟨some "hi", none, some "B", some "A"⟩
        ⟨fun _ => .threw, .created "m1" 1⟩ [] [("B", "s1")] =
      ⟨⟨500, false, some "emit failed", none⟩,
        [⟨"m1", "A", "B", "hi", none, false, 1⟩], []⟩ := by
  decide

/-- C10, amended: for every valid send whose persistence succeeds, when the
push raises no error the response to the sender is the success response with
the persisted message, the same whether the receiver has a registered handle or
not, and the message store after the call is the same whatever the registry
and the outcome of the push.  An error thrown by the push is not swallowed:
the response then is the error response with status 500, although the message
stays persisted. -/
theorem response_push_outcome (pushFault : Option (Option String)) (req : SendRequest)
    (env : Outside) (store : List Message) (m1 m2 : UserSocketMap) :
    (sendMessagePush none req env store m1).response =
        (sendMessagePush none req env store m2).response ∧
      (sendMessagePush pushFault req env store m1).store =
        (sendMessagePush none req env store m2).store ∧
      ∀ imageUrl _id createdAt, truthy req.receiverId = true →
        truthy req.senderId = true →
        (truthy req.text = true ∨ truthy req.image = true) →
        uploadStep req.image env.upload = some imageUrl →
        env.persist = .created _id createdAt →
        (sendMessagePush none req env store m1).response =
            ⟨200, true, none, some ⟨_id, req.senderId.getD "", req.receiverId.getD "",
              if truthy req.text then req.text.getD "" else "", imageUrl, false,
              createdAt⟩⟩ ∧
          (sendMessagePush pushFault req env store m1).store =
            store ++ [⟨_id, req.senderId.getD "", req.receiverId.getD "",
              if truthy req.text then req.text.getD "" else "", imageUrl, false,
              createdAt⟩] ∧
          ∀ message, pushFault = some message →
            (m1.lookup (req.receiverId.getD "")).truthy = true →
            (sendMessagePush pushFault req env store m1).response =
              ⟨500, false,
                some (if truthy message then message.getD "" else "Internal server error"),
                none⟩ := by
  have hindep := sendMessage_registry_indep req env store m1 m2
  refine ⟨?_, ?_, ?_⟩
  · rw [sendMessagePush_none, sendMessagePush_none]
    exact hindep.1
  · rw [sendMessagePush_store, sendMessagePush_none, sendMessagePush_none]
    exact hindep.2
  · intro imageUrl _id createdAt hr hs hc hu hp
    refine ⟨?_, ?_, ?_⟩
    · rw [sendMessagePush_persisted none req env store m1 imageUrl _id createdAt hr hs hc hu
        hp]
      split <;> rfl
    · rw [sendMessagePush_persisted pushFault req env store m1 imageUrl _id createdAt hr hs
        hc hu hp]
      split
      · cases pushFault <;> rfl
      · rfl
    · intro message hf ht
      rw [sendMessagePush_persisted pushFault req env store m1 imageUrl _id createdAt hr hs
        hc hu hp, if_pos ht, hf]

/-- Witness of the amended C10: the same send with the receiver registered and
the push throwing. -/
theorem response_push_outcome_witness :
    (sendMessagePush none ⟨some "hi", none, some "B", some "A"⟩
        ⟨fun _ => .threw, .created "m1" 1⟩ [] [("B", "s1")]).response =
        ⟨200, true, none, some ⟨"m1", "A", "B", "hi", none, false, 1⟩⟩ ∧
      (sendMessagePush (some none) ⟨some "hi", none, some "B", some "A"⟩
        ⟨fun _ => .threw, .created "m1" 1⟩ [] [("B", "s1")]).store =
        [] ++ [⟨"m1", "A", "B", "hi", none, false, 1⟩] ∧
      ∀ message, some none = some message →
        (UserSocketMap.lookup [("B", "s1")] "B").truthy = true →
        (sendMessagePush (some none) ⟨some "hi", none, some "B", some "A"⟩
          ⟨fun _ => .threw, .created "m1" 1⟩ [] [("B", "s1")]).response =
          ⟨500, false,
            some (if truthy message then message.getD "" else "Internal server error"),
            none⟩ :=
  (response_push_outcome (some none) ⟨some "hi", none, some "B", some "A"⟩
    ⟨fun _ => .threw, .created "m1" 1⟩ [] [("B", "s1")] []).2.2 none "m1" 1
    (by decide) (by decide) (Or.inl (by decide)) (by decide) rfl

/-! ## Plain objects: reading after writing -/

namespace JsObject

theorem obj_get_replaceValue {α : Type} (o : JsObject α) (k : String) (v : α)
    (k' : String) (h : (o.get k).isSome = true) :
    (o.replaceValue k v).get k' = if k' = k then some v else o.get k' := by
  induction o with
  | nil => simp [get] at h
  | cons e rest ih =>
    obtain ⟨k0, v0⟩ := e
    by_cases h0 : k0 = k
    · subst h0
      by_cases h1 : k' = k0
      · subst h1
        simp [replaceValue, get]
      · have h2 : ¬ k0 = k' := fun h3 => h1 h3.symm
        simp [replaceValue, get, h1, h2]
    · have hrest : (get rest k).isSome = true := by simpa [get, h0] using h
      by_cases h1 : k0 = k'
      · subst h1
        simp [replaceValue, get, h0]
      · simp [replaceValue, get, h0, h1, ih hrest]

theorem obj_get_insertNew {α : Type} (o : JsObject α) (k : String) (v : α)
    (k' : String) (h : o.get k = none) :
    (o.insertNew k v).get k' = if k' = k then some v else o.get k' := by
  induction o with
  | nil =>
    by_cases h1 : k = k'
    · subst h1
      simp [insertNew, get]
    · have h2 : ¬ k' = k := fun h3 => h1 h3.symm
      simp [insertNew, get, h1, h2]
  | cons e rest ih =>
    obtain ⟨k0, v0⟩ := e
    have h0 : ¬ k0 = k := by
      intro h0
      simp [get, h0] at h
    have hrest : get rest k = none := by simpa [get, h0] using h
    by_cases hb : keyBefore k k0 = true
    · by_cases h1 : k = k'
      · subst h1
        simp [insertNew, hb, get]
      · have h2 : ¬ k' = k := fun h3 => h1 h3.symm
        simp [insertNew, hb, get, h1, h2]
    · by_cases h1 : k0 = k'
      · subst h1
        simp [insertNew, hb, get, h0]
      · simp [insertNew, hb, get, h1, ih hrest]

theorem obj_get_set {α : Type} (o : JsObject α) (k : String) (v : α) (k' : String) :
    (o.set k v).get k' = if k' = k then some v else o.get k' := by
  unfold set
  cases hg : o.get k with
  | some w =>
    simp only [Option.isSome_some, if_true]
    exact obj_get_replaceValue o k v k' (by simp [hg])
  | none =>
    simp only [Option.isSome_none, Bool.false_eq_true, if_false]
    rw [obj_get_insertNew o k v k' hg]

end JsObject

/-! ## The message store: history and seen marking -/

theorem mem_conversation (store : List Message) (myId selectedUserId : String)
    (msg : Message) :
    msg ∈ conversation store myId selectedUserId ↔
      msg ∈ store ∧ ((msg.senderId = myId ∧ msg.receiverId = selectedUserId) ∨
        (msg.senderId = selectedUserId ∧ msg.receiverId = myId)) := by
  simp [conversation]

theorem sortByCreatedAt_perm (messages : List Message) :
    (sortByCreatedAt messages).Perm messages :=
  List.perm_insertionSort _ messages

theorem sortByCreatedAt_sorted (messages : List Message) :
    (sortByCreatedAt messages).Sorted (fun a b => a.createdAt ≤ b.createdAt) := by
  haveI : IsTotal Message (fun a b => a.createdAt ≤ b.createdAt) :=
    ⟨fun a b => Nat.le_total a.createdAt b.createdAt⟩
  haveI : IsTrans Message (fun a b => a.createdAt ≤ b.createdAt) :=
    ⟨fun _ _ _ h1 h2 => Nat.le_trans h1 h2⟩
  exact List.sorted_insertionSort _ messages

theorem getMessages_ok (store : List Message) (viewer peer : String)
    (hv : viewer ≠ "") (hp : peer ≠ "") :
    getMessages ⟨some peer, some viewer⟩ none store =
      (⟨200, true, none, some (sortByCreatedAt (conversation store viewer peer))⟩,
        updateManySeen store peer viewer) := by
  simp [getMessages, truthy, hv, hp]

theorem unseenCount_updateManySeen (store : List Message) (peer viewer : String) :
    unseenCount (updateManySeen store peer viewer) peer viewer = 0 := by
  unfold unseenCount updateManySeen
  rw [List.length_eq_zero, List.filter_eq_nil_iff]
  intro msg hmsg
  obtain ⟨m0, -, hm0⟩ := List.mem_map.mp hmsg
  by_cases hc : m0.senderId = peer ∧ m0.receiverId = viewer ∧ m0.seen = false
  · rw [if_pos hc] at hm0
    rw [← hm0]
    simp
  · rw [if_neg hc] at hm0
    rw [← hm0]
    simpa using hc

/-- C11 as stated fails: after `A` sends the text `hi` to `B`, who has no
registry entry, the one message that `getMessages` returns to `B` carries
`seen = false`; only the stored message has `seen = true` after the call. -/
theorem scenario_offline_send_counterexample :
    (sendMessage ⟨some "hi", none, some "B", some "A"⟩
        ⟨fun _ => .threw, .created "m1" 1⟩ [] []).response.newMessage =
        some ⟨"m1", "A", "B", "hi", none, false, 1⟩ ∧
      getMessages ⟨some "A", some "B"⟩ none
          (sendMessage ⟨some "hi", none, some "B", some "A"⟩
            ⟨fun _ => .threw, .created "m1" 1⟩ [] []).store =
        (⟨200, true, none, some [⟨"m1", "A", "B", "hi", none, false, 1⟩]⟩,
          [⟨"m1", "A", "B", "hi", none, true, 1⟩]) := by
  decide

/-- C11, amended: for any two identities `A` and `B` and an empty message
store, when `A` sends the text `hi` to `B` while the registry has no entry for
`B`, the response contains the persisted message with `seen = false` and
nothing is pushed; the subsequent `getMessages` of `B` for `A` returns exactly
that one message, still with `seen = false` as it was read before the marking,
and after the call the stored message has `seen = true`. -/
theorem scenario_offline_send (A B : String) (hA : A ≠ "") (hB : B ≠ "")
    (env : Outside) (_id : String) (createdAt : Nat) (m : UserSocketMap)
    (hp : env.persist = .created _id createdAt) (hm : m.get B = none) :
    sendMessage ⟨some "hi", none, some B, some A⟩ env [] m =
        ⟨⟨200, true, none, some ⟨_id, A, B, "hi", none, false, createdAt⟩⟩,
          [⟨_id, A, B, "hi", none, false, createdAt⟩], []⟩ ∧
      getMessages ⟨some A, some B⟩ none
          (sendMessage ⟨some "hi", none, some B, some A⟩ env [] m).store =
        (⟨200, true, none, some [⟨_id, A, B, "hi", none, false, createdAt⟩]⟩,
          [⟨_id, A, B, "hi", none, true, createdAt⟩]) := by
  have hsend : sendMessage ⟨some "hi", none, some B, some A⟩ env [] m =
      ⟨⟨200, true, none, some ⟨_id, A, B, "hi", none, false, createdAt⟩⟩,
        [⟨_id, A, B, "hi", none, false, createdAt⟩], []⟩ := by
    rw [sendMessage_persisted ⟨some "hi", none, some B, some A⟩ env [] m none _id createdAt
      (by simp [truthy, hB]) (by simp [truthy, hA]) (Or.inl (by simp [truthy])) rfl hp]
    simp [hm, truthy]
  refine ⟨hsend, ?_⟩
  rw [hsend, getMessages_ok _ B A hB hA]
  simp [conversation, sortByCreatedAt, updateManySeen]

/-- Witness of the amended C11. -/
theorem scenario_offline_send_witness :
    sendMessage ⟨some "hi", none, some "B", some "A"⟩
        ⟨fun _ => .threw, .created "m1" 1⟩ [] [("C", "s1")] =
        ⟨⟨200, true, none, some ⟨"m1", "A", "B", "hi", none, false, 1⟩⟩,
          [⟨"m1", "A", "B", "hi", none, false, 1⟩], []⟩ ∧
      getMessages ⟨some "A", some "B"⟩ none
          (sendMessage ⟨some "hi", none, some "B", some "A"⟩
            ⟨fun _ => .threw, .created "m1" 1⟩ [] [("C", "s1")]).store =
        (⟨200, true, none, some [⟨"m1", "A", "B", "hi", none, false, 1⟩]⟩,
          [⟨"m1", "A", "B", "hi", none, true, 1⟩]) :=
  scenario_offline_send "A" "B" (by decide) (by decide)
    ⟨fun _ => .threw, .created "m1" 1⟩ "m1" 1 [("C", "s1")] rfl (by decide)

/-- C12: for every store and every pair of viewer and peer, when the store
answers, `getMessages` returns exactly the stored messages whose sender and
receiver are viewer and peer in either direction, each as often as it is
stored, in ascending order of `createdAt`. -/
theorem getMessages_returns_conversation (store : List Message) (viewer peer : String)
    (hv : viewer ≠ "") (hp : peer ≠ "") :
    ∃ messages,
      (getMessages ⟨some peer, some viewer⟩ none store).1 =
        ⟨200, true, none, some messages⟩ ∧
      messages.Perm (store.filter (fun msg =>
        decide ((msg.senderId = viewer ∧ msg.receiverId = peer) ∨
          (msg.senderId = peer ∧ msg.receiverId = viewer)))) ∧
      (∀ msg, msg ∈ messages ↔ msg ∈ store ∧
        ((msg.senderId = viewer ∧ msg.receiverId = peer) ∨
          (msg.senderId = peer ∧ msg.receiverId = viewer))) ∧
      messages.Sorted (fun a b => a.createdAt ≤ b.createdAt) := by
  refine ⟨sortByCreatedAt (conversation store viewer peer), ?_, ?_, ?_, ?_⟩
  · rw [getMessages_ok store viewer peer hv hp]
  · exact sortByCreatedAt_perm _
  · intro msg
    rw [(sortByCreatedAt_perm _).mem_iff, mem_conversation]
  · exact sortByCreatedAt_sorted _

/-- Witness of C12: a store with two messages of the conversation, out of
order, and one message of another conversation. -/
theorem getMessages_returns_conversation_witness :
    ∃ messages,
      (getMessages ⟨some "B", some "A"⟩ none
        [⟨"m2", "B", "A", "yo", none, false, 5⟩, ⟨"m3", "C", "A", "x", none, false, 4⟩,
          ⟨"m1", "A", "B", "hi", none, true, 3⟩]).1 =
        ⟨200, true, none, some messages⟩ ∧
      messages.Perm (List.filter (fun msg =>
        decide ((msg.senderId = "A" ∧ msg.receiverId = "B") ∨
          (msg.senderId = "B" ∧ msg.receiverId = "A")))
        [⟨"m2", "B", "A", "yo", none, false, 5⟩, ⟨"m3", "C", "A", "x", none, false, 4⟩,
          ⟨"m1", "A", "B", "hi", none, true, 3⟩]) ∧
      (∀ msg, msg ∈ messages ↔
        msg ∈ [(⟨"m2", "B", "A", "yo", none, false, 5⟩ : Message),
          ⟨"m3", "C", "A", "x", none, false, 4⟩, ⟨"m1", "A", "B", "hi", none, true, 3⟩] ∧
        ((msg.senderId = "A" ∧ msg.receiverId = "B") ∨
          (msg.senderId = "B" ∧ msg.receiverId = "A"))) ∧
      messages.Sorted (fun a b => a.createdAt ≤ b.createdAt) :=
  getMessages_returns_conversation _ "A" "B" (by decide) (by decide)

/-! ## Unseen counts -/

theorem get_countUnseen (store : List Message) (userId : String)
    (countFails : String → Bool) (acc : JsObject Nat) (user : User) (u : String) :
    (countUnseen store userId countFails acc user).get u =
      if user._id = u ∧ countFails u = false ∧ 0 < unseenCount store u userId then
        some (unseenCount store u userId)
      else acc.get u := by
  unfold countUnseen
  by_cases hf : countFails user._id = true
  · rw [if_pos hf]
    by_cases hu : user._id = u
    · subst hu
      simp [hf]
    · simp [hu]
  · rw [if_neg hf]
    have hf2 : countFails user._id = false := by simpa using hf
    by_cases hpos : unseenCount store user._id userId > 0
    · rw [if_pos hpos, JsObject.obj_get_set]
      by_cases hu : user._id = u
      · subst hu
        simp [hf2, hpos]
      · have hu2 : ¬ u = user._id := fun h => hu h.symm
        simp [hu, hu2]
    · rw [if_neg hpos]
      by_cases hu : user._id = u
      · subst hu
        simp [hpos]
      · simp [hu]

theorem get_foldl_countUnseen (store : List Message) (userId : String)
    (countFails : String → Bool) (l : List User) (acc : JsObject Nat) (u : String) :
    (l.foldl (countUnseen store userId countFails) acc).get u =
      if u ∈ l.map User._id ∧ countFails u = false ∧ 0 < unseenCount store u userId then
        some (unseenCount store u userId)
      else acc.get u := by
  induction l generalizing acc with
  | nil => simp
  | cons user rest ih =>
    rw [List.foldl_cons, ih, get_countUnseen]
    by_cases hrest : u ∈ rest.map User._id
    · by_cases hc : countFails u = false ∧ 0 < unseenCount store u userId
      · simp [hrest, hc]
      · have hc1 : ¬ (u ∈ rest.map User._id ∧ countFails u = false ∧
            0 < unseenCount store u userId) := fun h => hc h.2
        have hc2 : ¬ (user._id = u ∧ countFails u = false ∧
            0 < unseenCount store u userId) := fun h => hc h.2
        have hc3 : ¬ (u ∈ (user :: rest).map User._id ∧ countFails u = false ∧
            0 < unseenCount store u userId) := fun h => hc h.2
        rw [if_neg hc1, if_neg hc2, if_neg hc3]
    · have hc1 : ¬ (u ∈ rest.map User._id ∧ countFails u = false ∧
          0 < unseenCount store u userId) := fun h => hrest h.1
      rw [if_neg hc1]
      by_cases hu : user._id = u
      · have hmem : u ∈ (user :: rest).map User._id := by simp [hu]
        simp only [hu, true_and, hmem]
      · have hmem : ¬ u ∈ (user :: rest).map User._id := by
          simp only [List.map_cons, List.mem_cons, not_or]
          exact ⟨fun h => hu h.symm, hrest⟩
        simp only [hu, false_and, hmem, if_false]

theorem getUsersForSidebar_ok (store : List Message) (users : List User)
    (viewer : String) (hv : viewer ≠ "") (countFails : String → Bool) :
    getUsersForSidebar (some viewer) none countFails users store =
      ⟨200, true, none, some (users.filter (fun user => decide (user._id ≠ viewer))),
        some ((users.filter (fun user => decide (user._id ≠ viewer))).foldl
          (countUnseen store viewer countFails) [])⟩ := by
  simp [getUsersForSidebar, truthy, hv]

theorem mem_filteredUsers_ids (users : List User) (viewer u : String) :
    u ∈ (users.filter (fun user => decide (user._id ≠ viewer))).map User._id ↔
      u ≠ viewer ∧ u ∈ users.map User._id := by
  simp only [List.mem_map, List.mem_filter, decide_eq_true_eq]
  constructor
  · rintro ⟨user, ⟨h1, h2⟩, h3⟩
    exact ⟨by rw [← h3]; exact h2, user, h1, h3⟩
  · rintro ⟨h1, user, h2, h3⟩
    exact ⟨user, ⟨h2, by rw [h3]; exact h1⟩, h3⟩

/-- C13: after a successful `getMessages` of `viewer` for `peer`, no stored
message from `peer` to `viewer` has `seen = false`, and the unseen-count map
that `getUsersForSidebar` then computes for `viewer`, whenever it answers with
one, has no entry for `peer`. -/
theorem unseen_cleared_after_getMessages (store : List Message) (viewer peer : String)
    (hv : viewer ≠ "") (hp : peer ≠ "") (users : List User)
    (fault : Option (Option String)) (countFails : String → Bool) :
    (getMessages ⟨some peer, some viewer⟩ none store).1.success = true ∧
      (∀ msg ∈ (getMessages ⟨some peer, some viewer⟩ none store).2,
        msg.senderId = peer → msg.receiverId = viewer → msg.seen = true) ∧
      ∀ unseenMessages,
        (getUsersForSidebar (some viewer) fault countFails users
          (getMessages ⟨some peer, some viewer⟩ none store).2).unseenMessages =
            some unseenMessages →
        unseenMessages.get peer = none := by
  rw [getMessages_ok store viewer peer hv hp]
  have hzero := unseenCount_updateManySeen store peer viewer
  refine ⟨rfl, ?_, ?_⟩
  · intro msg hmsg h1 h2
    simp only at hmsg
    unfold unseenCount at hzero
    rw [List.length_eq_zero, List.filter_eq_nil_iff] at hzero
    have := hzero msg hmsg
    simpa [h1, h2] using this
  · intro unseenMessages hum
    cases fault with
    | some message => simp [getUsersForSidebar, truthy, hv] at hum
    | none =>
      rw [getUsersForSidebar_ok _ _ viewer hv] at hum
      simp only [Option.some.injEq] at hum
      rw [← hum, get_foldl_countUnseen, hzero]
      simp [JsObject.get]

/-- Witness of C13: `A` reads the conversation with `B`, of whom one message
was unseen. -/
theorem unseen_cleared_after_getMessages_witness :
    (getMessages ⟨some "B", some "A"⟩ none
        [⟨"m1", "B", "A", "yo", none, false, 5⟩]).1.success = true ∧
      (∀ msg ∈ (getMessages ⟨some "B", some "A"⟩ none
          [⟨"m1", "B", "A", "yo", none, false, 5⟩]).2,
        msg.senderId = "B" → msg.receiverId = "A" → msg.seen = true) ∧
      ∀ unseenMessages,
        (getUsersForSidebar (some "A") none (fun _ => false)
          [⟨"A", "a", "a@x.y", "", ""⟩, ⟨"B", "b", "b@x.y", "", ""⟩]
          (getMessages ⟨some "B", some "A"⟩ none
            [⟨"m1", "B", "A", "yo", none, false, 5⟩]).2).unseenMessages =
            some unseenMessages →
        unseenMessages.get "B" = none :=
  unseen_cleared_after_getMessages _ "A" "B" (by decide) (by decide) _ none _

/-- C16: for every store, accounts and viewer, when every query succeeds, the
map `unseenMessages` returned by `getUsersForSidebar` gives for every other
account `u` the number of stored messages from `u` to the viewer with
`seen = false` (an absent entry read as 0); it has an entry for `u` exactly
when that number is positive, and never an entry for the viewer. -/
theorem unseenMessages_counts (store : List Message) (users : List User)
    (viewer : String) (hv : viewer ≠ "") (countFails : String → Bool)
    (hok : ∀ u, countFails u = false) :
    ∃ unseenMessages,
      (getUsersForSidebar (some viewer) none countFails users store).unseenMessages =
        some unseenMessages ∧
      (∀ u, u ∈ users.map User._id → u ≠ viewer →
        (unseenMessages.get u).getD 0 = unseenCount store u viewer ∧
        ((unseenMessages.get u).isSome = true ↔ 0 < unseenCount store u viewer)) ∧
      unseenMessages.get viewer = none := by
  rw [getUsersForSidebar_ok store users viewer hv]
  refine ⟨_, rfl, ?_, ?_⟩
  · intro u hu hne
    have hmem := (mem_filteredUsers_ids users viewer u).mpr ⟨hne, hu⟩
    rw [get_foldl_countUnseen]
    by_cases hpos : 0 < unseenCount store u viewer
    · rw [if_pos ⟨hmem, hok u, hpos⟩]
      simp [hpos]
    · have hz : unseenCount store u viewer = 0 := by omega
      rw [if_neg (fun h => hpos h.2.2)]
      simp [hz, JsObject.get]
  · have hmem : ¬ viewer ∈ (users.filter (fun user => decide (user._id ≠ viewer))).map
        User._id := fun h => ((mem_filteredUsers_ids users viewer viewer).mp h).1 rfl
    rw [get_foldl_countUnseen, if_neg (fun h => hmem h.1)]
    rfl

/-- Witness of C16: two unseen messages from `B`, none from `C`. -/
theorem unseenMessages_counts_witness :
    ∃ unseenMessages,
      (getUsersForSidebar (some "A") none (fun _ => false)
        [⟨"A", "a", "a@x.y", "", ""⟩, ⟨"B", "b", "b@x.y", "", ""⟩,
          ⟨"C", "c", "c@x.y", "", ""⟩]
        [⟨"m1", "B", "A", "yo", none, false, 5⟩, ⟨"m2", "B", "A", "hm", none, false, 6⟩,
          ⟨"m3", "C", "A", "x", none, true, 7⟩]).unseenMessages = some unseenMessages ∧
      (∀ u, u ∈ List.map User._id [⟨"A", "a", "a@x.y", "", ""⟩, ⟨"B", "b", "b@x.y", "", ""⟩,
          ⟨"C", "c", "c@x.y", "", ""⟩] → u ≠ "A" →
        (unseenMessages.get u).getD 0 = unseenCount
          [⟨"m1", "B", "A", "yo", none, false, 5⟩, ⟨"m2", "B", "A", "hm", none, false, 6⟩,
            ⟨"m3", "C", "A", "x", none, true, 7⟩] u "A" ∧
        ((unseenMessages.get u).isSome = true ↔ 0 < unseenCount
          [⟨"m1", "B", "A", "yo", none, false, 5⟩, ⟨"m2", "B", "A", "hm", none, false, 6⟩,
            ⟨"m3", "C", "A", "x", none, true, 7⟩] u "A")) ∧
      unseenMessages.get "A" = none :=
  unseenMessages_counts _ _ "A" (by decide) (fun _ => false) (fun _ => rfl)

/-! ## The seen flag -/

theorem seenRaised_refl (store : List Message) : SeenRaised store store :=
  fun _ _ h => Or.inl h

theorem seenRaised_trans (a b c : List Message) (h1 : SeenRaised a b)
    (h2 : SeenRaised b c) : SeenRaised a c := by
  intro i msg h
  rcases h1 i msg h with hb | ⟨hs, hb⟩
  · exact h2 i msg hb
  · rcases h2 i _ hb with hc | ⟨hs2, -⟩
    · exact Or.inr ⟨hs, hc⟩
    · simp at hs2

theorem seenRaised_append (store extra : List Message) :
    SeenRaised store (store ++ extra) := by
  intro i msg h
  left
  obtain ⟨hlt, -⟩ := List.getElem?_eq_some.mp h
  rw [List.getElem?_append_left hlt]
  exact h

theorem seenRaised_updateManySeen (store : List Message) (senderId receiverId : String) :
    SeenRaised store (updateManySeen store senderId receiverId) := by
  intro i msg h
  unfold updateManySeen
  rw [List.getElem?_map, h]
  by_cases hc : msg.senderId = senderId ∧ msg.receiverId = receiverId ∧ msg.seen = false
  · right
    exact ⟨hc.2.2, by simp [hc]⟩
  · left
    simp only [Option.map_some', if_neg hc]

theorem seenRaised_findByIdAndUpdateSeen (store : List Message) (id : String) :
    SeenRaised store (findByIdAndUpdateSeen store id).2 := by
  induction store with
  | nil => exact seenRaised_refl _
  | cons m0 rest ih =>
    intro i msg h
    by_cases h0 : m0._id = id
    · subst h0
      simp only [findByIdAndUpdateSeen, if_true]
      cases i with
      | zero =>
        simp only [List.getElem?_cons_zero, Option.some.injEq] at h ⊢
        subst h
        cases hs : m0.seen with
        | true =>
          left
          cases m0
          simp_all
        | false => exact Or.inr ⟨rfl, rfl⟩
      | succ j =>
        simp only [List.getElem?_cons_succ] at h ⊢
        exact Or.inl h
    · simp only [findByIdAndUpdateSeen, h0, if_false]
      cases i with
      | zero =>
        simp only [List.getElem?_cons_zero] at h ⊢
        exact Or.inl h
      | succ j =>
        simp only [List.getElem?_cons_succ] at h ⊢
        exact ih j msg h

theorem sendMessage_store_cases (req : SendRequest) (env : Outside)
    (store : List Message) (m : UserSocketMap) :
    (sendMessage req env store m).store = store ∨
      ∃ msg, (sendMessage req env store m).store = store ++ [msg] := by
  unfold sendMessage
  split
  · exact Or.inl rfl
  · split
    · exact Or.inl rfl
    · split
      · exact Or.inl rfl
      · split
        · exact Or.inl rfl
        · exact Or.inr ⟨_, rfl⟩

theorem seenRaised_apply (store : List Message) (call : StoreCall) :
    SeenRaised store (call.apply store) := by
  cases call with
  | sendMessage req env m =>
    simp only [StoreCall.apply]
    rcases sendMessage_store_cases req env store m with h | ⟨msg, h⟩
    · rw [h]
      exact seenRaised_refl _
    · rw [h]
      exact seenRaised_append _ _
  | getMessages req fault =>
    simp only [StoreCall.apply, getMessages]
    split
    · exact seenRaised_refl _
    · split
      · exact seenRaised_refl _
      · exact seenRaised_updateManySeen _ _ _
  | markMessageAsSeen id fault =>
    simp only [StoreCall.apply, markMessageAsSeen]
    split
    · exact seenRaised_refl _
    · split
      · exact seenRaised_refl _
      · split
        · exact seenRaised_refl _
        · exact seenRaised_findByIdAndUpdateSeen _ _

theorem seenRaised_runCalls (store : List Message) (calls : List StoreCall) :
    SeenRaised store (runCalls store calls) := by
  induction calls generalizing store with
  | nil => exact seenRaised_refl _
  | cons call rest ih =>
    exact seenRaised_trans _ _ _ (seenRaised_apply store call) (ih (call.apply store))

/-- C14: the seen flag is monotonic.  From every store and for every sequence
of `sendMessage`, `getMessages` and `markMessageAsSeen` calls, each stored
message is afterwards still at its place, unchanged or with `seen` raised from
`false` to `true`; so a message with `seen = true` is never changed, and, ids
being unique in the later store, the message with the id of a seen message has
`seen = true` there. -/
theorem seen_monotonic (store : List Message) (calls : List StoreCall) :
    (∀ (i : Nat) (msg : Message), store[i]? = some msg →
        (runCalls store calls)[i]? = some msg ∨
          (msg.seen = false ∧
            (runCalls store calls)[i]? = some { msg with seen := true })) ∧
      (∀ (i : Nat) (msg : Message), store[i]? = some msg → msg.seen = true →
        (runCalls store calls)[i]? = some msg) ∧
      ∀ msg ∈ store, msg.seen = true →
        ((runCalls store calls).map Message._id).Nodup →
        ∀ later ∈ runCalls store calls, later._id = msg._id → later.seen = true := by
  have hr := seenRaised_runCalls store calls
  have hkeep : ∀ (i : Nat) (msg : Message), store[i]? = some msg → msg.seen = true →
      (runCalls store calls)[i]? = some msg := by
    intro i msg h hs
    rcases hr i msg h with h1 | ⟨h1, -⟩
    · exact h1
    · rw [hs] at h1
      exact absurd h1 (by decide)
  refine ⟨hr, hkeep, ?_⟩
  intro msg hmem hs hnd later hlater hid
  obtain ⟨i, hi⟩ := List.getElem?_of_mem hmem
  have hin : msg ∈ runCalls store calls := List.mem_iff_getElem?.mpr ⟨i, hkeep i msg hi hs⟩
  rw [List.inj_on_of_nodup_map hnd hlater hin hid]
  exact hs

/-- Witness of C14: a seen message and an unseen one, then a history fetch, a
send and a mark. -/
theorem seen_monotonic_witness :
    ∀ msg ∈ [(⟨"m1", "A", "B", "hi", none, true, 1⟩ : Message),
        ⟨"m2", "B", "A", "yo", none, false, 2⟩], msg.seen = true →
      ((runCalls [⟨"m1", "A", "B", "hi", none, true, 1⟩,
          ⟨"m2", "B", "A", "yo", none, false, 2⟩]
        [.getMessages ⟨some "B", some "A"⟩ none,
          .sendMessage ⟨some "x", none, some "B", some "A"⟩
            ⟨fun _ => .threw, .created "m3" 3⟩ [],
          .markMessageAsSeen (some "m3") none]).map Message._id).Nodup →
      ∀ later ∈ runCalls [⟨"m1", "A", "B", "hi", none, true, 1⟩,
          ⟨"m2", "B", "A", "yo", none, false, 2⟩]
        [.getMessages ⟨some "B", some "A"⟩ none,
          .sendMessage ⟨some "x", none, some "B", some "A"⟩
            ⟨fun _ => .threw, .created "m3" 3⟩ [],
          .markMessageAsSeen (some "m3") none],
        later._id = msg._id → later.seen = true :=
  (seen_monotonic _ _).2.2

theorem findByIdAndUpdateSeen_none (store : List Message) (id : String)
    (h : ∀ msg ∈ store, msg._id ≠ id) : findByIdAndUpdateSeen store id = (none, store) := by
  induction store with
  | nil => rfl
  | cons m0 rest ih =>
    have h0 : ¬ m0._id = id := h m0 (List.mem_cons_self _ _)
    have ih2 := ih (fun msg hm => h msg (List.mem_cons_of_mem _ hm))
    simp [findByIdAndUpdateSeen, h0, ih2]

theorem findByIdAndUpdateSeen_some (store : List Message) (id : String)
    (h : ∃ msg ∈ store, msg._id = id) :
    ∃ pre msg post, store = pre ++ msg :: post ∧ msg._id = id ∧
      (∀ x ∈ pre, x._id ≠ id) ∧
      findByIdAndUpdateSeen store id =
        (some { msg with seen := true }, pre ++ { msg with seen := true } :: post) := by
  induction store with
  | nil =>
    obtain ⟨msg, hm, -⟩ := h
    simp at hm
  | cons m0 rest ih =>
    by_cases h0 : m0._id = id
    · refine ⟨[], m0, rest, rfl, h0, ?_, ?_⟩
      · simp
      · simp [findByIdAndUpdateSeen, h0]
    · have hrest : ∃ msg ∈ rest, msg._id = id := by
        obtain ⟨msg, hm, hid⟩ := h
        rcases List.mem_cons.mp hm with h1 | h1
        · rw [h1] at hid
          exact absurd hid h0
        · exact ⟨msg, h1, hid⟩
      obtain ⟨pre, msg, post, hs, hid, hpre, hf⟩ := ih hrest
      refine ⟨m0 :: pre, msg, post, by rw [hs]; rfl, hid, ?_, ?_⟩
      · intro x hx
        rcases List.mem_cons.mp hx with h1 | h1
        · rw [h1]
          exact h0
        · exact hpre x h1
      · simp [findByIdAndUpdateSeen, h0, hf]

/-- C15: `markMessageAsSeen` on a given id, when the store answers.  If a
message with that id exists, it is returned with `seen = true`, the stored
message has `seen = true` afterwards, and every other message and every other
field is unchanged; if no message has that id, the answer is status 404 and the
store is unchanged. -/
theorem markMessageAsSeen_spec (store : List Message) (id : String) (hid : id ≠ "") :
    ((∃ msg ∈ store, msg._id = id) →
        ∃ pre msg post, store = pre ++ msg :: post ∧ msg._id = id ∧
          (∀ x ∈ pre, x._id ≠ id) ∧
          markMessageAsSeen (some id) none store =
            (⟨200, true, some (.inr { msg with seen := true })⟩,
              pre ++ { msg with seen := true } :: post)) ∧
      ((∀ msg ∈ store, msg._id ≠ id) →
        markMessageAsSeen (some id) none store =
          (⟨404, false, some (.inl "Message not found")⟩, store)) := by
  constructor
  · intro h
    obtain ⟨pre, msg, post, hs, hmid, hpre, hf⟩ := findByIdAndUpdateSeen_some store id h
    refine ⟨pre, msg, post, hs, hmid, hpre, ?_⟩
    simp [markMessageAsSeen, truthy, hid, hf]
  · intro h
    simp [markMessageAsSeen, truthy, hid, findByIdAndUpdateSeen_none store id h]

/-- Witness of C15: the second of three messages is marked. -/
theorem markMessageAsSeen_spec_witness :
    ∃ pre msg post,
      [(⟨"m1", "A", "B", "hi", none, false, 1⟩ : Message),
        ⟨"m2", "B", "A", "yo", none, false, 2⟩, ⟨"m3", "A", "B", "x", none, false, 3⟩] =
        pre ++ msg :: post ∧ msg._id = "m2" ∧ (∀ x ∈ pre, x._id ≠ "m2") ∧
      markMessageAsSeen (some "m2") none
          [⟨"m1", "A", "B", "hi", none, false, 1⟩, ⟨"m2", "B", "A", "yo", none, false, 2⟩,
            ⟨"m3", "A", "B", "x", none, false, 3⟩] =
        (⟨200, true, some (.inr { msg with seen := true })⟩,
          pre ++ { msg with seen := true } :: post) :=
  (markMessageAsSeen_spec _ "m2" (by decide)).1 ⟨⟨"m2", "B", "A", "yo", none, false, 2⟩,
    by decide, rfl⟩

/-! ## Unknown receivers -/

theorem sendMessage_status_cases (req : SendRequest) (env : Outside)
    (store : List Message) (m : UserSocketMap) :
    (sendMessage req env store m).response.status = 200 ∨
      (sendMessage req env store m).response.status = 400 ∨
      (sendMessage req env store m).response.status = 500 := by
  unfold sendMessage
  split
  · exact Or.inr (Or.inl rfl)
  · split
    · exact Or.inr (Or.inl rfl)
    · split
      · exact Or.inr (Or.inr rfl)
      · split
        · exact Or.inr (Or.inr rfl)
        · exact Or.inl rfl

/-- C17 as stated fails: `Z` is the id of no account, yet the send of `A` to
`Z` is answered with success and the message is persisted. -/
theorem unknown_receiver_counterexample :
    "Z" ∉ List.map User._id [⟨"A", "a", "a@x.y", "", ""⟩, ⟨"B", "b", "b@x.y", "", ""⟩] ∧
      sendMessage ⟨some "hi", none, some "Z", some "A"⟩
          ⟨fun _ => .threw, .created "m1" 1⟩ [] [] =
        ⟨⟨200, true, none, some ⟨"m1", "A", "Z", "hi", none, false, 1⟩⟩,
          [⟨"m1", "A", "Z", "hi", none, false, 1⟩], []⟩ := by
  decide

/-- C17, amended: `sendMessage` does not look the receiver up among the
accounts and never answers not-found: its status is 200, 400 or 500, and a
send to a `receiverId` that is the id of no account, with valid content and a
successful upload and store, is persisted and answered with success like any
other send. -/
theorem unknown_receiver_persisted (users : List User) (req : SendRequest)
    (env : Outside) (store : List Message) (m : UserSocketMap) :
    (sendMessage req env store m).response.status ≠ 404 ∧
      ∀ receiverId imageUrl _id createdAt, req.receiverId = some receiverId →
        receiverId ≠ "" → receiverId ∉ users.map User._id →
        truthy req.senderId = true →
        (truthy req.text = true ∨ truthy req.image = true) →
        uploadStep req.image env.upload = some imageUrl →
        env.persist = .created _id createdAt →
        (sendMessage req env store m).response.status = 200 ∧
          (sendMessage req env store m).response.success = true ∧
          ∃ msg, msg.receiverId = receiverId ∧
            (sendMessage req env store m).response.newMessage = some msg ∧
            (sendMessage req env store m).store = store ++ [msg] := by
  constructor
  · rcases sendMessage_status_cases req env store m with h | h | h <;> rw [h] <;> decide
  · intro receiverId imageUrl _id createdAt hrec hne _ hs hc hu hp
    have hr : truthy req.receiverId = true := by simp [hrec, truthy, hne]
    rw [sendMessage_persisted req env store m imageUrl _id createdAt hr hs hc hu hp]
    refine ⟨rfl, rfl, _, ?_, rfl, rfl⟩
    simp [hrec]

/-- Witness of the amended C17, on the request of the counterexample. -/
theorem unknown_receiver_persisted_witness :
    (sendMessage ⟨some "hi", none, some "Z", some "A"⟩
        ⟨fun _ => .threw, .created "m1" 1⟩ [] []).response.status = 200 ∧
      (sendMessage ⟨some "hi", none, some "Z", some "A"⟩
        ⟨fun _ => .threw, .created "m1" 1⟩ [] []).response.success = true ∧
      ∃ msg, msg.receiverId = "Z" ∧
        (sendMessage ⟨some "hi", none, some "Z", some "A"⟩
          ⟨fun _ => .threw, .created "m1" 1⟩ [] []).response.newMessage = some msg ∧
        (sendMessage ⟨some "hi", none, some "Z", some "A"⟩
          ⟨fun _ => .threw, .created "m1" 1⟩ [] []).store = [] ++ [msg] :=
  (unknown_receiver_persisted [⟨"A", "a", "a@x.y", "", ""⟩, ⟨"B", "b", "b@x.y", "", ""⟩]
    ⟨some "hi", none, some "Z", some "A"⟩ ⟨fun _ => .threw, .created "m1" 1⟩ [] []).2
    "Z" none "m1" 1 rfl (by decide) (by decide) (by decide) (Or.inl (by decide))
    (by decide) rfl

/-! ## The client: pushed events -/

theorem fromSelectedUser_iff (selectedUser : Option User) (msg : Message) :
    fromSelectedUser selectedUser msg = true ↔
      ∃ user, selectedUser = some user ∧ msg.senderId = user._id := by
  cases selectedUser with
  | none => simp [fromSelectedUser]
  | some user => simp [fromSelectedUser]

/-- C18 as stated fails: with a conversation with `B` open and no token, a
pushed message from `B` is appended (marked seen) but no `markSeen` request is
issued. -/
theorem handleNewMessage_counterexample :
    handleNewMessage none
        ⟨[], [], some ⟨"B", "b", "b@x.y", "", ""⟩, [], true⟩
        (some ⟨"m1", "B", "A", "yo", none, false, 1⟩) =
      (⟨[⟨"m1", "B", "A", "yo", none, true, 1⟩], [],
          some ⟨"B", "b", "b@x.y", "", ""⟩, [], true⟩, []) := by
  decide

/-- C18, amended: client handling of a pushed message `msg`, for every local
state.  If a conversation is open and `msg.senderId` is the id of the selected
peer, the message list becomes the previous list with `msg` (marked seen)
appended at the end, the rest of the state (the unseen counts included) is
unchanged, and a `markSeen` request for the id of `msg` is issued when the
client holds a token and that id is not empty, none otherwise.  In every other
case no request is issued, the unseen count of `msg.senderId` is its previous
value (absent read as 0) plus one, the count of every other sender is unchanged
and so are the message list and the rest of the state. -/
theorem handleNewMessage_spec (token : Option String) (state : ChatState) (msg : Message) :
    ((∃ user, state.selectedUser = some user ∧ msg.senderId = user._id) →
        handleNewMessage token state (some msg) =
          ({ state with messages := state.messages ++ [{ msg with seen := true }] },
            if truthy token = true ∧ msg._id ≠ "" then [msg._id] else [])) ∧
      ((¬ ∃ user, state.selectedUser = some user ∧ msg.senderId = user._id) →
        (handleNewMessage token state (some msg)).2 = [] ∧
          (handleNewMessage token state (some msg)).1.messages = state.messages ∧
          (handleNewMessage token state (some msg)).1.users = state.users ∧
          (handleNewMessage token state (some msg)).1.selectedUser = state.selectedUser ∧
          (handleNewMessage token state (some msg)).1.isUsersLoaded = state.isUsersLoaded ∧
          ∀ k, (handleNewMessage token state (some msg)).1.unseenMessages.get k =
            if k = msg.senderId then
              some ((state.unseenMessages.get msg.senderId).getD 0 + 1)
            else state.unseenMessages.get k) := by
  constructor
  · intro h
    have hs := (fromSelectedUser_iff state.selectedUser msg).mpr h
    simp only [handleNewMessage, hs, if_true]
    by_cases ht : truthy token = true ∧ msg._id ≠ ""
    · simp [ht, truthy]
    · rw [if_neg ht]
      by_cases ht1 : truthy token = true
      · have : msg._id = "" := by
          by_contra hne
          exact ht ⟨ht1, hne⟩
        simp [ht1, truthy, this]
      · simp [ht1]
  · intro h
    have hs : fromSelectedUser state.selectedUser msg = false := by
      cases hf : fromSelectedUser state.selectedUser msg with
      | false => rfl
      | true => exact absurd ((fromSelectedUser_iff _ _).mp hf) h
    simp only [handleNewMessage, hs, Bool.false_eq_true, if_false, true_and]
    intro k
    exact JsObject.obj_get_set _ _ _ _

/-- Witness of the amended C18, on the state of the counterexample with a
token. -/
theorem handleNewMessage_spec_witness :
    handleNewMessage (some "t") ⟨[], [], some ⟨"B", "b", "b@x.y", "", ""⟩, [], true⟩
        (some ⟨"m1", "B", "A", "yo", none, false, 1⟩) =
      ({ (⟨[], [], some ⟨"B", "b", "b@x.y", "", ""⟩, [], true⟩ : ChatState) with
          messages := [] ++ [{ (⟨"m1", "B", "A", "yo", none, false, 1⟩ : Message) with
            seen := true }] },
        if truthy (some "t") = true ∧ "m1" ≠ "" then ["m1"] else []) :=
  (handleNewMessage_spec (some "t") ⟨[], [], some ⟨"B", "b", "b@x.y", "", ""⟩, [], true⟩
    ⟨"m1", "B", "A", "yo", none, false, 1⟩).1 ⟨_, rfl, rfl⟩

/-- C19 as stated fails: a `userCreated` event for an identity already in the
list leaves the old entry in place, and a `userUpdated` event for an identity
not in the list appends nothing; in both cases the list does not contain the
profile of the event afterwards. -/
theorem user_upsert_counterexample :
    handleUserCreated none [⟨"B", "old", "b@x.y", "", ""⟩]
        (some ⟨"B", "new", "b@x.y", "", ""⟩) = [⟨"B", "old", "b@x.y", "", ""⟩] ∧
      (handleUserUpdated ⟨[], [⟨"C", "c", "c@x.y", "", ""⟩], none, [], true⟩
        (some ⟨"B", "new", "b@x.y", "", ""⟩)).users = [⟨"C", "c", "c@x.y", "", ""⟩] := by
  decide

/-- C19, amended: a `userCreated` event for profile `p` appends `p` at the end
of the user list when `p` is not the client's own identity and no entry has the
identity of `p`, and leaves the list unchanged otherwise (an existing entry is
not replaced).  A `userUpdated` event for `p` replaces every entry with the
identity of `p` by `p` at the same position and appends nothing, so the list is
unchanged when no entry has that identity.  In both cases all other entries
keep their values and positions. -/
theorem user_events_spec (authUser : Option User) (state : ChatState) (p : User) :
    ((some p._id = authUser.map User._id ∨ ∃ u ∈ state.users, u._id = p._id) →
        handleUserCreated authUser state.users (some p) = state.users) ∧
      ((some p._id ≠ authUser.map User._id ∧ ∀ u ∈ state.users, u._id ≠ p._id) →
        handleUserCreated authUser state.users (some p) = state.users ++ [p]) ∧
      (handleUserUpdated state (some p)).users.length = state.users.length ∧
      (∀ (i : Nat) (u : User), state.users[i]? = some u →
        (handleUserUpdated state (some p)).users[i]? =
          some (if u._id = p._id then p else u)) ∧
      ((∀ u ∈ state.users, u._id ≠ p._id) →
        (handleUserUpdated state (some p)).users = state.users) := by
  refine ⟨?_, ?_, ?_, ?_, ?_⟩
  · rintro (h | ⟨u, hu, hid⟩)
    · simp [handleUserCreated, h]
    · have hany : state.users.any (fun user => decide (user._id = p._id)) = true :=
        List.any_eq_true.mpr ⟨u, hu, by simpa using hid⟩
      simp only [handleUserCreated, hany, if_true]
      split <;> rfl
  · rintro ⟨h1, h2⟩
    have hany : ¬ state.users.any (fun user => decide (user._id = p._id)) = true := by
      intro h
      obtain ⟨u, hu, hid⟩ := List.any_eq_true.mp h
      exact h2 u hu (by simpa using hid)
    simp only [handleUserCreated, h1, ne_eq, not_false_eq_true, if_true, hany, if_false]
    simp
  · simp [handleUserUpdated]
  · intro i u hi
    simp only [handleUserUpdated, List.getElem?_map, hi, Option.map_some']
  · intro h
    simp only [handleUserUpdated]
    conv_rhs => rw [← List.map_id state.users]
    apply List.map_congr_left
    intro u hu
    simp [h u hu]

/-- Witness of the amended C19: a profile of a new identity is created. -/
theorem user_events_spec_witness :
    handleUserCreated (some ⟨"A", "a", "a@x.y", "", ""⟩)
        [⟨"C", "c", "c@x.y", "", ""⟩] (some ⟨"B", "b", "b@x.y", "", ""⟩) =
      [⟨"C", "c", "c@x.y", "", ""⟩] ++ [⟨"B", "b", "b@x.y", "", ""⟩] :=
  (user_events_spec (some ⟨"A", "a", "a@x.y", "", ""⟩)
    ⟨[], [⟨"C", "c", "c@x.y", "", ""⟩], none, [], true⟩
    ⟨"B", "b", "b@x.y", "", ""⟩).2.1 ⟨by decide, by decide⟩

/-- C20: selecting a conversation with peer `p`, for every unseen-count map:
after the selection effect the unseen count of `p` is zero (a zero entry or no
entry) and the count of every other identity is unchanged. -/
theorem clearUnseenOnSelect_spec (p : User) (unseenMessages : JsObject Nat)
    (hp : p._id ≠ "") :
    ((clearUnseenOnSelect (some p) unseenMessages).get p._id).getD 0 = 0 ∧
      ∀ k, k ≠ p._id →
        (clearUnseenOnSelect (some p) unseenMessages).get k = unseenMessages.get k := by
  unfold clearUnseenOnSelect
  by_cases hz : (unseenMessages.get p._id).getD 0 = 0
  · simp [hz, truthy, hp]
  · simp only [truthy, ne_eq, hp, not_false_eq_true, decide_True, hz, Bool.and_self, if_true]
    refine ⟨by simp [JsObject.obj_get_set], ?_⟩
    intro k hk
    rw [JsObject.obj_get_set, if_neg hk]

/-- Witness of C20: three unseen messages of `B`, one of `C`. -/
theorem clearUnseenOnSelect_spec_witness :
    ((clearUnseenOnSelect (some ⟨"B", "b", "b@x.y", "", ""⟩)
        [("B", 3), ("C", 1)]).get "B").getD 0 = 0 ∧
      ∀ k, k ≠ "B" →
        (clearUnseenOnSelect (some ⟨"B", "b", "b@x.y", "", ""⟩) [("B", 3), ("C", 1)]).get k =
          JsObject.get [("B", 3), ("C", 1)] k :=
  clearUnseenOnSelect_spec ⟨"B", "b", "b@x.y", "", ""⟩ [("B", 3), ("C", 1)] (by decide)

/-! ## The client: sending and signing out -/

/-- C21: a failed send leaves the local message list unchanged.  When the
client holds a token and a user is selected, so that the request is made: if
the request fails (the promise rejects, or the response has no truthy
`success`) `sendMessage` returns an object with `success` false and the
message list is exactly what it was; if it succeeds the list is the previous
list with the returned `newMessage` appended at the end.  In every case the
list changes only in that second way. -/
theorem client_send_failure_unchanged (token : Option String)
    (selectedUser : Option User) (messages : List Message) (outcome : PostOutcome)
    (ht : truthy token = true) (hs : truthy (selectedUser.map User._id) = true) :
    ((∀ newMessage, outcome ≠ .accepted newMessage) →
        (Client.sendMessage token selectedUser messages outcome).returned =
            some ⟨false, none⟩ ∧
          (Client.sendMessage token selectedUser messages outcome).messages = messages) ∧
      (∀ newMessage, outcome = .accepted newMessage →
        (Client.sendMessage token selectedUser messages outcome).returned =
            some ⟨true, some newMessage⟩ ∧
          (Client.sendMessage token selectedUser messages outcome).messages =
            messages ++ [newMessage]) ∧
      ((Client.sendMessage token selectedUser messages outcome).messages ≠ messages →
        ∃ newMessage, outcome = .accepted newMessage) := by
  cases outcome with
  | threw status => simp [Client.sendMessage, ht, hs]
  | refused message => simp [Client.sendMessage, ht, hs]
  | accepted msg => simp [Client.sendMessage, ht, hs]

/-- Witness of C21: the server answers the request with status 500. -/
theorem client_send_failure_unchanged_witness :
    (Client.sendMessage (some "t") (some ⟨"B", "b", "b@x.y", "", ""⟩)
        [⟨"m1", "A", "B", "hi", none, false, 1⟩] (.threw (some 500))).returned =
        some ⟨false, none⟩ ∧
      (Client.sendMessage (some "t") (some ⟨"B", "b", "b@x.y", "", ""⟩)
        [⟨"m1", "A", "B", "hi", none, false, 1⟩] (.threw (some 500))).messages =
        [⟨"m1", "A", "B", "hi", none, false, 1⟩] :=
  (client_send_failure_unchanged (some "t") (some ⟨"B", "b", "b@x.y", "", ""⟩)
    [⟨"m1", "A", "B", "hi", none, false, 1⟩] (.threw (some 500)) (by decide)
    (by decide)).1 (fun _ h => by cases h)

/-- C22: sign-out discards all local state.  From every client state, after
`logout` (that is `clearAuthData`) followed by the reset effect of
`ChatProvider` on the new `authUser`, the token (also the stored one) and
`authUser` are `null`, the online set is empty and no socket is held; the
message list, the user list and the unseen-count map are empty, no peer is
selected and `isUsersLoaded` is false. -/
theorem logout_discards_state (auth : AuthState) (state : ChatState) :
    (logout auth).1.token = none ∧ (logout auth).1.storedToken = none ∧
      (logout auth).1.authUser = none ∧ (logout auth).1.onlineUsers = [] ∧
      (logout auth).1.socket = none ∧
      resetOnAuthUser (logout auth).1.authUser state = ⟨[], [], none, [], false⟩ :=
  ⟨rfl, rfl, rfl, rfl, rfl, rfl⟩

/-! ## `getMessages` and `sendMessage`: frame and upload -/

/-- C23: frame of `getMessages`.  For every store, request and store outcome,
the call adds and removes no message; every stored message is afterwards at
its place, either unchanged or, when its sender is the peer, its receiver the
viewer and its `seen` flag false, with only the `seen` flag changed.  So the
viewer's own outgoing messages and the messages of other conversations keep
all their fields. -/
theorem getMessages_frame (req : GetMessagesRequest) (fault : Option (Option String))
    (store : List Message) :
    (getMessages req fault store).2.length = store.length ∧
      (∀ (i : Nat) (msg : Message), store[i]? = some msg →
        (getMessages req fault store).2[i]? = some msg ∨
          (some msg.senderId = req.selectedUserId ∧ some msg.receiverId = req.myId ∧
            msg.seen = false ∧
            (getMessages req fault store).2[i]? = some { msg with seen := true })) ∧
      ∀ (i : Nat) (msg : Message), store[i]? = some msg →
        ¬ (some msg.senderId = req.selectedUserId ∧ some msg.receiverId = req.myId) →
        (getMessages req fault store).2[i]? = some msg := by
  have key : ∀ (i : Nat) (msg : Message), store[i]? = some msg →
      (getMessages req fault store).2[i]? = some msg ∨
        (some msg.senderId = req.selectedUserId ∧ some msg.receiverId = req.myId ∧
          msg.seen = false ∧
          (getMessages req fault store).2[i]? = some { msg with seen := true }) := by
    intro i msg h
    unfold getMessages
    split
    · exact Or.inl h
    · rename_i hg
      simp only [Bool.or_eq_true, Bool.not_eq_true', not_or, Bool.not_eq_false] at hg
      obtain ⟨peer, hpeer, -⟩ := (truthy_eq_true_iff _).mp hg.1
      obtain ⟨viewer, hviewer, -⟩ := (truthy_eq_true_iff _).mp hg.2
      cases fault with
      | some message => exact Or.inl h
      | none =>
        simp only [hpeer, hviewer, Option.getD_some, updateManySeen, List.getElem?_map, h,
          Option.map_some']
        by_cases hc : msg.senderId = peer ∧ msg.receiverId = viewer ∧ msg.seen = false
        · right
          rw [if_pos hc]
          exact ⟨by rw [hc.1], by rw [hc.2.1], hc.2.2, rfl⟩
        · left
          rw [if_neg hc]
  refine ⟨?_, key, ?_⟩
  · unfold getMessages
    split
    · rfl
    · cases fault with
      | some message => rfl
      | none => simp [updateManySeen]
  · intro i msg h hne
    rcases key i msg h with h1 | ⟨h1, h2, -, -⟩
    · exact h1
    · exact absurd ⟨h1, h2⟩ hne

/-- Witness of C23: `A` reads the conversation with `B`; the own message of `A`
keeps its flag. -/
theorem getMessages_frame_witness :
    (getMessages ⟨some "B", some "A"⟩ none
        [⟨"m1", "A", "B", "hi", none, false, 1⟩, ⟨"m2", "B", "A", "yo", none, false, 2⟩]).2[0]?
      = some ⟨"m1", "A", "B", "hi", none, false, 1⟩ :=
  (getMessages_frame ⟨some "B", some "A"⟩ none
    [⟨"m1", "A", "B", "hi", none, false, 1⟩, ⟨"m2", "B", "A", "yo", none, false, 2⟩]).2.2 0
    ⟨"m1", "A", "B", "hi", none, false, 1⟩ rfl (by decide)

/-- C24 fails on the code: a request with an image and no text passes the
validation, the upload answers without `secure_url`, and `sendMessage` persists
and returns a message whose text is empty and whose image is undefined. -/
theorem sendMessage_persists_empty_message :
    sendMessage ⟨none, some "img", some "B", some "A"⟩
        ⟨fun _ => .done none, .created "m1" 1⟩ [] [] =
      ⟨⟨200, true, none, some ⟨"m1", "A", "B", "", none, false, 1⟩⟩,
        [⟨"m1", "A", "B", "", none, false, 1⟩], []⟩ := by
  decide

/-- C26: when a send request carries an image and the upload fails, nothing is
persisted and nothing is pushed, also when the request carries a non-empty
text: the store is unchanged, no event is emitted, no message is returned, and
with sender and receiver ids present the answer is status 500. -/
theorem upload_failure_persists_nothing (req : SendRequest) (env : Outside)
    (store : List Message) (m : UserSocketMap) (image : String)
    (himg : req.image = some image) (hne : image ≠ "") (hup : env.upload image = .threw) :
    (sendMessage req env store m).store = store ∧
      (sendMessage req env store m).emitted = [] ∧
      (sendMessage req env store m).response.success = false ∧
      (sendMessage req env store m).response.newMessage = none ∧
      (truthy req.receiverId = true → truthy req.senderId = true →
        (sendMessage req env store m).response =
          ⟨500, false, some "Failed to upload image", none⟩) := by
  have hti : truthy req.image = true := by simp [himg, truthy, hne]
  have hstep : uploadStep req.image env.upload = none := by
    simp [uploadStep, himg, truthy, hne, hup]
  unfold sendMessage
  split
  · rename_i hg
    refine ⟨rfl, rfl, rfl, rfl, ?_⟩
    intro hr hs
    simp [hr, hs] at hg
  · split
    · rename_i hc
      simp [hti] at hc
    · simp [hstep]

/-- Witness of C26: a text and an image whose upload throws, with the receiver
registered. -/
theorem upload_failure_persists_nothing_witness :
    (sendMessage ⟨some "hi", some "img", some "B", some "A"⟩
        ⟨fun _ => .threw, .created "m1" 1⟩ [] [("B", "s1")]).store = [] ∧
      (sendMessage ⟨some "hi", some "img", some "B", some "A"⟩
        ⟨fun _ => .threw, .created "m1" 1⟩ [] [("B", "s1")]).emitted = [] ∧
      (sendMessage ⟨some "hi", some "img", some "B", some "A"⟩
        ⟨fun _ => .threw, .created "m1" 1⟩ [] [("B", "s1")]).response.success = false ∧
      (sendMessage ⟨some "hi", some "img", some "B", some "A"⟩
        ⟨fun _ => .threw, .created "m1" 1⟩ [] [("B", "s1")]).response.newMessage = none ∧
      (truthy (some "B") = true → truthy (some "A") = true →
        (sendMessage ⟨some "hi", some "img", some "B", some "A"⟩
          ⟨fun _ => .threw, .created "m1" 1⟩ [] [("B", "s1")]).response =
          ⟨500, false, some "Failed to upload image", none⟩) :=
  upload_failure_persists_nothing ⟨some "hi", some "img", some "B", some "A"⟩
    ⟨fun _ => .threw, .created "m1" 1⟩ [] [("B", "s1")] "img" rfl (by decide) rfl

/-! ## The user list and the caller of `markMessageAsSeen` -/

theorem handleUserCreated_cases (authUser : Option User) (prevUsers : List User)
    (newUserData : Option User) :
    handleUserCreated authUser prevUsers newUserData = prevUsers ∨
      ∃ p, newUserData = some p ∧ (∀ u ∈ prevUsers, u._id ≠ p._id) ∧
        handleUserCreated authUser prevUsers newUserData = prevUsers ++ [p] := by
  cases newUserData with
  | none => exact Or.inl rfl
  | some p =>
    unfold handleUserCreated
    by_cases h1 : some p._id ≠ authUser.map User._id
    · by_cases hany : prevUsers.any (fun user => decide (user._id = p._id)) = true
      · left
        simp only [h1, ne_eq, not_false_eq_true, if_true, hany]
      · right
        refine ⟨p, rfl, ?_, ?_⟩
        · intro u hu hid
          exact hany (List.any_eq_true.mpr ⟨u, hu, by simpa using hid⟩)
        · simp only [h1, ne_eq, not_false_eq_true, if_true, hany]
          simp
    · left
      simp only [h1, if_false]

theorem ids_handleUserUpdated (state : ChatState) (updatedUserData : Option User) :
    (handleUserUpdated state updatedUserData).users.map User._id =
      state.users.map User._id := by
  cases updatedUserData with
  | none => rfl
  | some p =>
    simp only [handleUserUpdated, List.map_map]
    apply List.map_congr_left
    intro u _
    by_cases h : u._id = p._id
    · simp [h]
    · simp [h]

/-- C25: the local user list never gets duplicates.  If the identities in the
list are pairwise distinct, they are still pairwise distinct after handling any
`userCreated` or `userUpdated` event; a `userCreated` event lets the length
grow by at most one and a `userUpdated` event never changes it. -/
theorem users_stay_distinct (authUser : Option User) (state : ChatState)
    (data : Option User) (h : (state.users.map User._id).Nodup) :
    ((handleUserCreated authUser state.users data).map User._id).Nodup ∧
      state.users.length ≤ (handleUserCreated authUser state.users data).length ∧
      (handleUserCreated authUser state.users data).length ≤ state.users.length + 1 ∧
      ((handleUserUpdated state data).users.map User._id).Nodup ∧
      (handleUserUpdated state data).users.length = state.users.length := by
  have hupd := ids_handleUserUpdated state data
  have hlen : (handleUserUpdated state data).users.length = state.users.length := by
    have := congrArg List.length hupd
    simpa using this
  rcases handleUserCreated_cases authUser state.users data with hc | ⟨p, -, hp, hc⟩
  · rw [hc, hupd]
    exact ⟨h, le_refl _, Nat.le_succ _, h, hlen⟩
  · rw [hc, hupd]
    refine ⟨?_, by simp, by simp, h, hlen⟩
    rw [List.map_append, List.nodup_append]
    refine ⟨h, by simp, ?_⟩
    intro a ha hb
    simp only [List.map_cons, List.map_nil, List.mem_singleton] at hb
    obtain ⟨u, hu, hid⟩ := List.mem_map.mp ha
    exact hp u hu (by rw [hid, hb])

/-- Witness of C25: a `userCreated` event for an identity already listed. -/
theorem users_stay_distinct_witness :
    ((handleUserCreated none [⟨"B", "b", "b@x.y", "", ""⟩, ⟨"C", "c", "c@x.y", "", ""⟩]
        (some ⟨"B", "new", "b@x.y", "", ""⟩)).map User._id).Nodup ∧
      [(⟨"B", "b", "b@x.y", "", ""⟩ : User), ⟨"C", "c", "c@x.y", "", ""⟩].length ≤
        (handleUserCreated none [⟨"B", "b", "b@x.y", "", ""⟩, ⟨"C", "c", "c@x.y", "", ""⟩]
          (some ⟨"B", "new", "b@x.y", "", ""⟩)).length ∧
      (handleUserCreated none [⟨"B", "b", "b@x.y", "", ""⟩, ⟨"C", "c", "c@x.y", "", ""⟩]
          (some ⟨"B", "new", "b@x.y", "", ""⟩)).length ≤
        [(⟨"B", "b", "b@x.y", "", ""⟩ : User), ⟨"C", "c", "c@x.y", "", ""⟩].length + 1 ∧
      ((handleUserUpdated
          ⟨[], [⟨"B", "b", "b@x.y", "", ""⟩, ⟨"C", "c", "c@x.y", "", ""⟩], none, [], true⟩
          (some ⟨"B", "new", "b@x.y", "", ""⟩)).users.map User._id).Nodup ∧
      (handleUserUpdated
          ⟨[], [⟨"B", "b", "b@x.y", "", ""⟩, ⟨"C", "c", "c@x.y", "", ""⟩], none, [], true⟩
          (some ⟨"B", "new", "b@x.y", "", ""⟩)).users.length =
        [(⟨"B", "b", "b@x.y", "", ""⟩ : User), ⟨"C", "c", "c@x.y", "", ""⟩].length :=
  users_stay_distinct none
    ⟨[], [⟨"B", "b", "b@x.y", "", ""⟩, ⟨"C", "c", "c@x.y", "", ""⟩], none, [], true⟩
    (some ⟨"B", "new", "b@x.y", "", ""⟩) (by decide)

/-- C27: `markMessageAsSeen` does not depend on who calls it.  For every store,
message id and store outcome, any two callers get the same response and leave
the same store; so when the store answers and a message with the given id
exists, a caller who is not its receiver gets the message back with
`seen = true`, as the receiver would. -/
theorem markMessageAsSeen_any_caller (id : Option String) (caller other : Option String)
    (fault : Option (Option String)) (store : List Message) :
    markMessageAsSeenBy ⟨id, caller⟩ fault store =
        markMessageAsSeenBy ⟨id, other⟩ fault store ∧
      ∀ msg ∈ store, id = some msg._id → msg._id ≠ "" →
        some msg.receiverId ≠ caller →
        ∃ marked, (markMessageAsSeenBy ⟨id, caller⟩ none store).1 =
            ⟨200, true, some (.inr marked)⟩ ∧
          marked._id = msg._id ∧ marked.seen = true ∧
          marked ∈ (markMessageAsSeenBy ⟨id, caller⟩ none store).2 := by
  refine ⟨rfl, ?_⟩
  intro msg hmem hid hne _
  obtain ⟨pre, m0, post, -, hm0, -, hf⟩ :=
    findByIdAndUpdateSeen_some store msg._id ⟨msg, hmem, rfl⟩
  have hres : markMessageAsSeen (some msg._id) none store =
      (⟨200, true, some (.inr { m0 with seen := true })⟩,
        pre ++ { m0 with seen := true } :: post) := by
    simp [markMessageAsSeen, truthy, hne, hf]
  refine ⟨{ m0 with seen := true }, ?_, hm0, rfl, ?_⟩
  · simp only [markMessageAsSeenBy, hid, hres]
  · simp only [markMessageAsSeenBy, hid, hres]
    simp

/-- Witness of C27: the sender `A` marks its own message to `B` as seen. -/
theorem markMessageAsSeen_any_caller_witness :
    ∃ marked, (markMessageAsSeenBy ⟨some "m1", some "A"⟩ none
          [⟨"m1", "A", "B", "hi", none, false, 1⟩]).1 =
          ⟨200, true, some (.inr marked)⟩ ∧
        marked._id = "m1" ∧ marked.seen = true ∧
        marked ∈ (markMessageAsSeenBy ⟨some "m1", some "A"⟩ none
          [⟨"m1", "A", "B", "hi", none, false, 1⟩]).2 :=
  (markMessageAsSeen_any_caller (some "m1") (some "A") (some "B") none
    [⟨"m1", "A", "B", "hi", none, false, 1⟩]).2 ⟨"m1", "A", "B", "hi", none, false, 1⟩
    (by decide) rfl (by decide) (by decide)

end ChatApp
